import Mathlib

/-!
# `up robot token list`

A shallow embedding of `cmd/up/robot/token/list.go`: the command `listCmd.Run`, which
looks up an account, resolves a robot by name in the organization's roster, lists the
robot's tokens and hands them to a table renderer (`printTokens`).

The remote clients, the clock, the timestamp parser and the renderer are collaborators of
the command. They are gathered in a record `World` of response functions, and a run
yields the list of calls it made (its trace) together with the `error` it returns.
-/

namespace token

/-! ## Data model -/

/-- Type `uuid.UUID` of github.com/google/uuid: an array of sixteen bytes. -/
structure UUID where
  bytes : List (Fin 256)
  size : bytes.length = 16
deriving DecidableEq

/-- Modelled from the spec: `accounts.AccountType` of the SDK is declared outside this
repository; the spec gives an account the kind Organization or User. -/
inductive AccountType where
  | AccountOrganization
  | AccountUser
deriving DecidableEq, Repr

/-- The `Account` part of an account response; only its `Type` is read. -/
structure Account where
  Type' : AccountType
deriving DecidableEq

/-- The `Organization` part of an account response; only its `ID` is read. -/
structure Organization where
  ID : Nat
deriving DecidableEq

/-- What `ac.Get` returns on success. -/
structure AccountResponse where
  Account : Account
  Organization : Organization
deriving DecidableEq

/-- One element of the roster returned by `oc.ListRobots`. -/
structure Robot where
  ID : UUID
  Name : String
deriving DecidableEq

/-- A Go `interface{}` value as `fmt.Sprint` observes it: the nil interface, a string, a
boolean, or a value of any other dynamic type, which is carried by the text that the
`%v` verb prints for it. -/
inductive Any where
  | nil
  | string (s : String)
  | bool (b : Bool)
  | other (text : String)
deriving DecidableEq

/-- Type `common.DataSet`: a token as the robots service returns it. The two
`map[string]interface{}` fields are association lists read with `List.lookup`. -/
structure DataSet where
  ID : UUID
  AttributeSet : List (String × Any)
  Meta : List (String × Any)
deriving DecidableEq

/-- What `rc.ListTokens` returns on success. -/
structure RobotTokensResponse where
  DataSet : List DataSet
deriving DecidableEq

/-- The part of `upbound.Context` that `Run` reads. -/
structure Context where
  Account : String
deriving DecidableEq

/-- The command: `listCmd{RobotName}`. -/
structure listCmd where
  RobotName : String
deriving DecidableEq

/-- The string constants of package `token` that `Run` uses. They are declared in another
file of the package, so their text is a parameter of the model. -/
structure Consts where
  errUserAccount : String
  errFindRobotFmt : String
  errMultipleRobotFmt : String
deriving DecidableEq

/-- An error value handed over by a collaborator (a remote client or the renderer). -/
structure Upstream where
  text : String
deriving DecidableEq

/-- A Go `error` as `Run` returns it: either a value it made itself with `errors.New` or
`errors.Errorf` (kept as the format and its operands), or `passed e`, which is the
collaborator's error value `e` itself, returned by `return err`. -/
inductive Error where
  | New (message : String)
  | Errorf (format : String) (a : List String)
  | passed (e : Upstream)
deriving DecidableEq

/-- An instant, in nanoseconds since the Unix epoch. -/
structure Time where
  unixNano : Int
deriving DecidableEq

/-- Type `time.Duration`: a count of nanoseconds, an `int64` in Go. -/
abbrev Duration := Int

/-- A call that leaves `Run`: the three remote calls, `p.Printfln` and the rendering of a
table `pt.WithHasHeader().WithData(data).Render()`. -/
inductive Event where
  | Get (account : String)
  | ListRobots (orgID : Nat)
  | ListTokens (rid : UUID)
  | Printfln (format : String) (a : List String)
  | Render (hasHeader : Bool) (data : List (List String))
deriving DecidableEq

/-- The collaborators of one run: the answers of the three remote clients, of
`time.Parse(time.RFC3339, ·)`, of the clock read by `time.Since` in loop iteration `i` of
`printTokens`, and of the renderer (`none` is a nil error). -/
structure World where
  Get : String → Except Upstream AccountResponse
  ListRobots : Nat → Except Upstream (List Robot)
  ListTokens : UUID → Except Upstream RobotTokensResponse
  Parse : String → Option Time
  Now : Nat → Time
  Render : List (List String) → Option Upstream

/-- What a run amounts to: the calls made, in order, and the returned `error`
(`Except.ok ()` is nil). -/
abbrev Ran := List Event × Except Error Unit

/-- The run `k` preceded by the call `e`. -/
def after (e : Event) (k : Ran) : Ran := (e :: k.1, k.2)

/-! ## Robot resolution (`Run`, lines 60 to 80) -/

/-- The `for _, r := range rs` loop of `Run` (lines 68 to 77), started with the pointer
`rid` as given: a second robot of the requested name returns the `errMultipleRobotFmt`
error from inside the loop; otherwise the loop ends with the final `rid`. -/
def listCmd.range (c : listCmd) (k : Consts) (upCtx : Context) :
    Option UUID → List Robot → Except Error (Option UUID)
  | rid, [] => .ok rid
  | rid, r :: rs =>
    if r.Name = c.RobotName then
      if rid ≠ none then
        .error (.Errorf k.errMultipleRobotFmt [c.RobotName, upCtx.Account])
      else
        listCmd.range c k upCtx (some r.ID) rs
    else
      listCmd.range c k upCtx rid rs

/-- Lines 60 to 80 of `Run`: the empty-roster guard, the loop and the nil check on `rid`. -/
def listCmd.resolve (c : listCmd) (k : Consts) (upCtx : Context) (rs : List Robot) :
    Except Error UUID :=
  if rs.length = 0 then
    .error (.Errorf k.errFindRobotFmt [c.RobotName, upCtx.Account])
  else
    match listCmd.range c k upCtx none rs with
    | .error err => .error err
    | .ok none => .error (.Errorf k.errFindRobotFmt [c.RobotName, upCtx.Account])
    | .ok (some rid) => .ok rid

/-! ## Library functions used by `printTokens` -/

/-- Function `fmt.Sprint` on one operand. -/
def Sprint : Any → String
  | .nil => "<nil>"
  | .string s => s
  | .bool b => if b then "true" else "false"
  | .other text => text

/-- The value form `m[key]` of a Go map index: the nil interface when the key is absent. -/
def index (m : List (String × Any)) (key : String) : Any :=
  (m.lookup key).getD .nil

/-- The digits of `encoding/hex`. -/
def hextable : List Char := "0123456789abcdef".toList

/-- Function `hex.Encode`: two lower-case digits per byte. -/
def hexEncode : List (Fin 256) → List Char
  | [] => []
  | v :: vs => hextable.getD (v.val / 16) '0' :: hextable.getD (v.val % 16) '0' :: hexEncode vs

/-- Method `UUID.String`: the form xxxxxxxx-xxxx-xxxx-xxxx-xxxxxxxxxxxx. -/
def UUID.String (u : UUID) : String :=
  String.mk (hexEncode (u.bytes.take 4) ++ '-' :: hexEncode ((u.bytes.drop 4).take 2)
    ++ '-' :: hexEncode ((u.bytes.drop 6).take 2) ++ '-' :: hexEncode ((u.bytes.drop 8).take 2)
    ++ '-' :: hexEncode (u.bytes.drop 10))

/-- Constant `time.Second`, a `Duration`: in nanoseconds. -/
def Second : Int := 1000000000

/-- Constant `time.Minute`. -/
def Minute : Int := 60 * Second

/-- Constant `time.Hour`. -/
def Hour : Int := 60 * Minute

/-- The least `time.Duration`, `-1 << 63`. -/
def minDuration : Int := -(2 ^ 63)

/-- The greatest `time.Duration`, `1<<63 - 1`. -/
def maxDuration : Int := 2 ^ 63 - 1

/-- Method `Time.Sub` on readings of the wall clock: the difference `t - u`, which
saturates at the ends of the `int64` range of a `Duration`. -/
def Time.Sub (t u : Time) : Duration :=
  if t.unixNano - u.unixNano < minDuration then minDuration
  else if maxDuration < t.unixNano - u.unixNano then maxDuration
  else t.unixNano - u.unixNano

/-- Function `time.Since(t)` when the clock reads `now`: a parsed time carries no
monotonic reading, so this is `now.Sub(t)`. -/
def Since (now t : Time) : Duration := now.Sub t

/-- Function `duration.HumanDuration` of k8s.io/apimachinery/pkg/util/duration, the
dependency imported at line 26 and called at line 101, transcribed branch by branch.
Go's `/` and `%` on integers truncate toward zero (`Int.tdiv`, `Int.tmod`), and
`int(d.Seconds())` is the truncated quotient by `time.Second`: the floating-point sum
that `Seconds` forms is only compared with -1, 0 and 120, where it is exact to well
below a nanosecond. -/
def HumanDuration (d : Duration) : String :=
  let seconds := Int.tdiv d Second
  if seconds < -1 then "<invalid>"
  else if seconds < 0 then "0s"
  else if seconds < 60 * 2 then toString seconds ++ "s"
  else
    let minutes := Int.tdiv d Minute
    if minutes < 10 then
      let s := Int.tmod (Int.tdiv d Second) 60
      if s = 0 then toString minutes ++ "m"
      else toString minutes ++ "m" ++ toString s ++ "s"
    else if minutes < 60 * 3 then toString minutes ++ "m"
    else
      let hours := Int.tdiv d Hour
      if hours < 8 then
        let m := Int.tmod (Int.tdiv d Minute) 60
        if m = 0 then toString hours ++ "h"
        else toString hours ++ "h" ++ toString m ++ "m"
      else if hours < 48 then toString hours ++ "h"
      else if hours < 24 * 8 then
        let h := Int.tmod hours 24
        if h = 0 then toString (Int.tdiv hours 24) ++ "d"
        else toString (Int.tdiv hours 24) ++ "d" ++ toString h ++ "h"
      else if hours < 24 * 365 * 2 then toString (Int.tdiv hours 24) ++ "d"
      else if hours < 24 * 365 * 8 then
        let dy := Int.tmod (Int.tdiv hours 24) 365
        if dy = 0 then toString (Int.tdiv (Int.tdiv hours 24) 365) ++ "y"
        else toString (Int.tdiv (Int.tdiv hours 24) 365) ++ "y" ++ toString dy ++ "d"
      else toString (Int.tdiv (Int.tdiv hours 24) 365) ++ "y"

/-! ## `printTokens` (lines 93 to 107) -/

/-- The created column `c` of the token `t` handled in loop iteration `i` (lines 98 to
103): "n/a" unless `Meta` has the key "createdAt" and its printed value parses. -/
def printTokens.c (w : World) (i : Nat) (t : DataSet) : String :=
  match t.Meta.lookup "createdAt" with
  | none => "n/a"
  | some ca =>
    match w.Parse (Sprint ca) with
    | none => "n/a"
    | some ct => HumanDuration (Since (w.Now i) ct)

/-- The row stored in `data[i+1]` (lines 97 and 104). -/
def printTokens.row (w : World) (i : Nat) (t : DataSet) : List String :=
  [Sprint (index t.AttributeSet "name"), t.ID.String, printTokens.c w i t]

/-- The rows that the loop `for i, t := range ts` stores, for the tokens from index `i`
on. -/
def printTokens.rows (w : World) : Nat → List DataSet → List (List String)
  | _, [] => []
  | i, t :: ts => printTokens.row w i t :: printTokens.rows w (i + 1) ts

/-- The slice `data` when the loop has ended: the header at index 0, then the rows. -/
def printTokens.data (w : World) (ts : List DataSet) : List (List String) :=
  ["NAME", "ID", "CREATED"] :: printTokens.rows w 0 ts

/-- Function `printTokens`: the table is rendered with its first row as header and the
renderer's error is the result. -/
def printTokens (w : World) (ts : List DataSet) : Ran :=
  ([.Render true (printTokens.data w ts)],
    match w.Render (printTokens.data w ts) with
    | none => .ok ()
    | some err => .error (.passed err))

/-! ## `listCmd.Run` (lines 48 to 91) -/

/-- Lines 82 to 90 of `Run`, with `*rid` equal to `rid`. -/
def listCmd.tokens (c : listCmd) (w : World) (upCtx : Context) (rid : UUID) : Ran :=
  after (.ListTokens rid)
    (match w.ListTokens rid with
    | .error err => ([], .error (.passed err))
    | .ok ts =>
      if ts.DataSet.length = 0 then
        ([.Printfln "No tokens found for robot %s in %s" [c.RobotName, upCtx.Account]], .ok ())
      else
        printTokens w ts.DataSet)

/-- Method `listCmd.Run`. -/
def listCmd.Run (c : listCmd) (k : Consts) (w : World) (upCtx : Context) : Ran :=
  after (.Get upCtx.Account)
    (match w.Get upCtx.Account with
    | .error err => ([], .error (.passed err))
    | .ok a =>
      if a.Account.Type' ≠ AccountType.AccountOrganization then
        ([], .error (.New k.errUserAccount))
      else
        after (.ListRobots a.Organization.ID)
          (match w.ListRobots a.Organization.ID with
          | .error err => ([], .error (.passed err))
          | .ok rs =>
            match listCmd.resolve c k upCtx rs with
            | .error err => ([], .error err)
            | .ok rid => listCmd.tokens c w upCtx rid))

/-! ## Reading the output -/

/-- The scan of `fmt.Sprintf` over a format, for string operands and for formats made of
plain text, the verb `%s` and `%%`; `none` marks a format or an operand count outside
this fragment. -/
def Sprintf.scan : List Char → List String → Option (List Char)
  | [], [] => some []
  | [], _ :: _ => none
  | '%' :: 's' :: f, a :: as => (a.data ++ ·) <$> Sprintf.scan f as
  | '%' :: '%' :: f, as => ('%' :: ·) <$> Sprintf.scan f as
  | '%' :: _, _ => none
  | ch :: f, as => (ch :: ·) <$> Sprintf.scan f as

/-- Function `fmt.Sprintf` on the fragment of `Sprintf.scan`: the text that `p.Printfln`
prints before the line end. -/
def Sprintf (format : String) (a : List String) : Option String :=
  String.mk <$> Sprintf.scan format.data a

/-- The shape that the spec gives the created column: a single integer (one or more
decimal digits) followed by a single unit suffix (one letter). -/
def singleIntegerUnit (s : String) : Bool :=
  match s.data.reverse with
  | [] => false
  | u :: ds => u.isAlpha && !ds.isEmpty && ds.all Char.isDigit

/-- The units in which `HumanDuration` counts. -/
inductive TimeUnit where
  | s
  | m
  | h
  | d
  | y
deriving DecidableEq

/-- The length of a unit: a day is 24 hours and a year 365 days. -/
def TimeUnit.size : TimeUnit → Int
  | .s => Second
  | .m => Minute
  | .h => Hour
  | .d => 24 * Hour
  | .y => 365 * (24 * Hour)

/-- The suffix of a unit. -/
def TimeUnit.suffix : TimeUnit → String
  | .s => "s"
  | .m => "m"
  | .h => "h"
  | .d => "d"
  | .y => "y"

/-- The next smaller unit. -/
def TimeUnit.lower : TimeUnit → TimeUnit
  | .s => .s
  | .m => .s
  | .h => .m
  | .d => .h
  | .y => .d

/-- The unit of the leading group of `HumanDuration d`: seconds below two minutes, minutes
below three hours, hours below 48 hours, days below twice 365 days, years from there. -/
def leadingUnit (d : Int) : TimeUnit :=
  if d < 2 * Minute then .s
  else if d < 3 * Hour then .m
  else if d < 48 * Hour then .h
  else if d < 2 * (365 * (24 * Hour)) then .d
  else .y

/-- The ranges in which `HumanDuration d` adds the remainder in the next smaller unit:
from two to ten minutes, from three to eight hours, from two to eight days and from two
to eight years. -/
def showsRemainder (d : Int) : Bool :=
  (2 * Minute ≤ d && d < 10 * Minute) || (3 * Hour ≤ d && d < 8 * Hour)
    || (48 * Hour ≤ d && d < 8 * (24 * Hour))
    || (2 * (365 * (24 * Hour)) ≤ d && d < 8 * (365 * (24 * Hour)))

/-! ## A sample world

Concrete collaborators on which the theorems below are instantiated. -/

/-- The value of the decimal digit `ch`, if it is one. -/
def digit (ch : Char) : Option Nat :=
  if ch.isDigit then some (ch.toNat - 48) else none

/-- Function `isLeap` of package `time`. -/
def isLeap (year : Nat) : Bool :=
  year % 4 = 0 && (year % 100 ≠ 0 || year % 400 = 0)

/-- Function `daysIn` of package `time`: the number of days of month `m` in `year`. -/
def daysIn (m year : Nat) : Nat :=
  if m = 2 then (if isLeap year then 29 else 28)
  else if m = 4 ∨ m = 6 ∨ m = 9 ∨ m = 11 then 30
  else 31

/-- The number of days from 1970-01-01 to the given day of the proleptic Gregorian
calendar. -/
def daysSinceEpoch (year month day : Nat) : Int :=
  let y : Int := if month ≤ 2 then (year : Int) - 1 else year
  let era : Int := y / 400
  let yoe : Int := y - era * 400
  let mp : Int := if month ≤ 2 then (month : Int) + 9 else (month : Int) - 3
  let doy : Int := (153 * mp + 2) / 5 + day - 1
  era * 146097 + (yoe * 365 + yoe / 4 - yoe / 100 + doy) - 719468

/-- The instant of a date and a time of day in UTC, when the fields are in range. -/
def utcDate (year month day hour min sec : Nat) : Option Time :=
  if month < 1 ∨ 12 < month then none
  else if day < 1 ∨ daysIn month year < day then none
  else if 24 ≤ hour ∨ 60 ≤ min ∨ 60 ≤ sec then none
  else some ⟨(daysSinceEpoch year month day * 86400 + hour * 3600 + min * 60 + sec) * 1000000000⟩

/-- A stand-in for `time.Parse(time.RFC3339, ·)` in the sample world: it reads the strings
of the exact shape `YYYY-MM-DDTHH:MM:SSZ` and rejects every other string. (Go reads more
forms than this one, such as numeric zone offsets and fractional seconds.) -/
def parseUTC (s : String) : Option Time :=
  match s.data with
  | [y1, y2, y3, y4, p1, m1, m2, p2, d1, d2, p3, h1, h2, p4, n1, n2, p5, s1, s2, p6] =>
    if p1 = '-' ∧ p2 = '-' ∧ p3 = 'T' ∧ p4 = ':' ∧ p5 = ':' ∧ p6 = 'Z' then do
      let year := 1000 * (← digit y1) + 100 * (← digit y2) + 10 * (← digit y3) + (← digit y4)
      let month := 10 * (← digit m1) + (← digit m2)
      let day := 10 * (← digit d1) + (← digit d2)
      let hour := 10 * (← digit h1) + (← digit h2)
      let min := 10 * (← digit n1) + (← digit n2)
      let sec := 10 * (← digit s1) + (← digit s2)
      utcDate year month day hour min sec
    else none
  | _ => none

/-- The UUID whose last byte is `n` and whose other bytes are zero. -/
def sampleID (n : Fin 256) : UUID :=
  ⟨[0, 0, 0, 0, 0, 0, 0, 0, 0, 0, 0, 0, 0, 0, 0, n], rfl⟩

/-- Sample constants of the package. -/
def sampleConsts : Consts :=
  { errUserAccount := "robots are not currently supported for user accounts"
    errFindRobotFmt := "could not find robot %s in account %s"
    errMultipleRobotFmt := "found multiple robots with name %s in %s" }

/-- The account `acme`. -/
def acme : Context := ⟨"acme"⟩

/-- The command `up robot token list bot1`. -/
def listBot1 : listCmd := ⟨"bot1"⟩

/-- The organization account returned for `acme`. -/
def acmeAccount : AccountResponse := ⟨⟨.AccountOrganization⟩, ⟨7⟩⟩

/-- A world in which every call succeeds: the account is an organization, the roster is
`rs`, every robot has the tokens `ts`, the clock always reads `now` and rendering
succeeds. -/
def sampleWorld (rs : List Robot) (ts : List DataSet) (now : Time) : World :=
  { Get := fun _ => .ok acmeAccount
    ListRobots := fun _ => .ok rs
    ListTokens := fun _ => .ok ⟨ts⟩
    Parse := parseUTC
    Now := fun _ => now
    Render := fun _ => none }

/-- The instant 2022-06-01T12:00:00Z. -/
def noon : Time := ⟨1654084800000000000⟩

/-- The robot `bot1` with ID `sampleID 1`. -/
def bot1 : Robot := ⟨sampleID 1, "bot1"⟩

/-- A second robot named `bot1`, with ID `sampleID 2`. -/
def bot1Twin : Robot := ⟨sampleID 2, "bot1"⟩

/-- A robot of another name, with ID `sampleID 3`. -/
def bot3 : Robot := ⟨sampleID 3, "bot3"⟩

/-- The token of scenario 3: named `tok1`, created at 2022-06-01T10:00:00Z, which is 7200
seconds before `noon`. -/
def tok1 : DataSet :=
  { ID := sampleID 17
    AttributeSet := [("name", .string "tok1")]
    Meta := [("createdAt", .string "2022-06-01T10:00:00Z")] }

/-- A token whose metadata lacks "createdAt". -/
def tokUndated : DataSet :=
  { ID := sampleID 18
    AttributeSet := [("name", .string "tok2")]
    Meta := [("owner", .string "bot1")] }

/-- A token whose "createdAt" is a number and no timestamp. -/
def tokMisdated : DataSet :=
  { ID := sampleID 19
    AttributeSet := [("name", .string "tok3")]
    Meta := [("createdAt", .other "1654077600")] }

/-- A token created at 2022-06-01T11:56:50Z, which is 190 seconds before `noon`. -/
def tokRecent : DataSet :=
  { ID := sampleID 20
    AttributeSet := [("name", .string "tok4")]
    Meta := [("createdAt", .string "2022-06-01T11:56:50Z")] }

/-- The error that the failing collaborators of the sample worlds return. -/
def refused : Upstream := ⟨"connection refused"⟩

/-- A world whose account lookup fails. -/
def worldNoAccount : World :=
  { sampleWorld [bot1] [tok1] noon with Get := fun _ => .error refused }

/-- A world whose account is a user account. -/
def worldUser : World :=
  { sampleWorld [bot1] [tok1] noon with Get := fun _ => .ok ⟨⟨.AccountUser⟩, ⟨0⟩⟩ }

/-- A world whose roster fetch fails. -/
def worldNoRoster : World :=
  { sampleWorld [bot1] [tok1] noon with ListRobots := fun _ => .error refused }

/-- A world whose token listing fails. -/
def worldNoTokens : World :=
  { sampleWorld [bot1] [tok1] noon with ListTokens := fun _ => .error refused }

/-! ## Reading a run -/

/-- Whether a call is a rendering of a table. -/
def Event.isRender : Event → Bool
  | .Render _ _ => true
  | _ => false

/-- The outcome of resolution as the spec words it, from the robots of the requested
name alone: none is the absence error, one is that robot's ID, two or more is the
ambiguous-name error. -/
def outcomeOfMatches (c : listCmd) (k : Consts) (upCtx : Context) :
    List Robot → Except Error UUID
  | [] => .error (.Errorf k.errFindRobotFmt [c.RobotName, upCtx.Account])
  | [r] => .ok r.ID
  | _ :: _ :: _ => .error (.Errorf k.errMultipleRobotFmt [c.RobotName, upCtx.Account])

/-- A token without the attribute "name", created 190 seconds before `noon`. -/
def tokNameless : DataSet :=
  { ID := sampleID 21
    AttributeSet := [("scope", .string "read")]
    Meta := [("createdAt", .string "2022-06-01T11:56:50Z")] }

/-- A world whose renderer fails. -/
def worldNoRender : World :=
  { sampleWorld [bot1] [tok1] noon with Render := fun _ => some refused }

/-- A token created at 0001-01-01T00:00:00Z, more than 292 years before `noon`. -/
def tokAncient : DataSet :=
  { ID := sampleID 22
    AttributeSet := [("name", .string "tok5")]
    Meta := [("createdAt", .string "0001-01-01T00:00:00Z")] }

/-- A token dated 9999-01-01T00:00:00Z, more than 292 years after `noon`. -/
def tokFuture : DataSet :=
  { ID := sampleID 23
    AttributeSet := [("name", .bool true)]
    Meta := [("createdAt", .string "9999-01-01T00:00:00Z")] }

/-! # Theorems -/

/-! ## Robot resolution -/

/-- The loop passes over robots of other names without touching `rid`. -/
theorem range_of_no_match (c : listCmd) (k : Consts) (upCtx : Context) (rid : Option UUID)
    (rs : List Robot) (h : ∀ x ∈ rs, x.Name ≠ c.RobotName) :
    listCmd.range c k upCtx rid rs = .ok rid := by
  induction rs with
  | nil => rfl
  | cons x xs ih =>
    have hx : x.Name ≠ c.RobotName := h x (List.mem_cons_self x xs)
    have hxs : ∀ y ∈ xs, y.Name ≠ c.RobotName := fun y hy => h y (List.mem_cons_of_mem x hy)
    simp [listCmd.range, hx, ih hxs]

/-- Once `rid` is set, the loop ends in the `errMultipleRobotFmt` error as soon as the
rest of the roster holds a robot of the requested name. -/
theorem range_of_second_match (c : listCmd) (k : Consts) (upCtx : Context) (id : UUID)
    (rs : List Robot) (h : 0 < rs.countP (fun x => decide (x.Name = c.RobotName))) :
    listCmd.range c k upCtx (some id) rs
      = .error (.Errorf k.errMultipleRobotFmt [c.RobotName, upCtx.Account]) := by
  induction rs with
  | nil => simp at h
  | cons x xs ih =>
    by_cases hx : x.Name = c.RobotName
    · simp [listCmd.range, hx]
    · have hxs : 0 < xs.countP (fun x => decide (x.Name = c.RobotName)) := by
        simpa [List.countP_cons, hx] using h
      simp [listCmd.range, hx, ih hxs]

/-- With `rid` still nil and exactly one robot of the requested name ahead, the loop ends
with `rid` pointing at that robot's ID. -/
theorem range_of_one_match (c : listCmd) (k : Consts) (upCtx : Context) (r : Robot)
    (rs : List Robot) (hr : r ∈ rs) (hname : r.Name = c.RobotName)
    (hone : rs.countP (fun x => decide (x.Name = c.RobotName)) = 1) :
    listCmd.range c k upCtx none rs = .ok (some r.ID) := by
  induction rs with
  | nil => simp at hr
  | cons x xs ih =>
    by_cases hx : x.Name = c.RobotName
    · have hzero : xs.countP (fun x => decide (x.Name = c.RobotName)) = 0 := by
        simpa [List.countP_cons, hx] using hone
      have hnone : ∀ y ∈ xs, y.Name ≠ c.RobotName := by
        intro y hy hyn
        have := List.countP_eq_zero.mp hzero y hy
        simp [hyn] at this
      have hrx : r = x := by
        rcases List.mem_cons.mp hr with h | h
        · exact h
        · exact absurd hname (hnone r h)
      subst hrx
      simp [listCmd.range, hx, range_of_no_match c k upCtx (some r.ID) xs hnone]
    · have hone' : xs.countP (fun x => decide (x.Name = c.RobotName)) = 1 := by
        simpa [List.countP_cons, hx] using hone
      have hr' : r ∈ xs := by
        rcases List.mem_cons.mp hr with h | h
        · exact absurd (h ▸ hname) hx
        · exact h
      simp [listCmd.range, hx, ih hr' hone']

/-- With `rid` still nil and two or more robots of the requested name ahead, the loop
returns the `errMultipleRobotFmt` error. -/
theorem range_of_many_matches (c : listCmd) (k : Consts) (upCtx : Context) (rs : List Robot)
    (hmany : 2 ≤ rs.countP (fun x => decide (x.Name = c.RobotName))) :
    listCmd.range c k upCtx none rs
      = .error (.Errorf k.errMultipleRobotFmt [c.RobotName, upCtx.Account]) := by
  induction rs with
  | nil => simp at hmany
  | cons x xs ih =>
    by_cases hx : x.Name = c.RobotName
    · have hpos : 0 < xs.countP (fun x => decide (x.Name = c.RobotName)) := by
        have : 2 ≤ xs.countP (fun x => decide (x.Name = c.RobotName)) + 1 := by
          simpa [List.countP_cons, hx] using hmany
        omega
      simp [listCmd.range, hx, range_of_second_match c k upCtx x.ID xs hpos]
    · have hmany' : 2 ≤ xs.countP (fun x => decide (x.Name = c.RobotName)) := by
        simpa [List.countP_cons, hx] using hmany
      simp [listCmd.range, hx, ih hmany']

/-- Resolution of a roster with exactly one robot of the requested name. -/
theorem resolve_of_one_match (c : listCmd) (k : Consts) (upCtx : Context) (r : Robot)
    (rs : List Robot) (hr : r ∈ rs) (hname : r.Name = c.RobotName)
    (hone : rs.countP (fun x => decide (x.Name = c.RobotName)) = 1) :
    listCmd.resolve c k upCtx rs = .ok r.ID := by
  have hlen : rs.length ≠ 0 := by
    intro h
    rw [List.length_eq_zero.mp h] at hr
    simp at hr
  simp [listCmd.resolve, hlen, range_of_one_match c k upCtx r rs hr hname hone]

/-- Resolution of a roster with two or more robots of the requested name. -/
theorem resolve_of_many_matches (c : listCmd) (k : Consts) (upCtx : Context) (rs : List Robot)
    (hmany : 2 ≤ rs.countP (fun x => decide (x.Name = c.RobotName))) :
    listCmd.resolve c k upCtx rs
      = .error (.Errorf k.errMultipleRobotFmt [c.RobotName, upCtx.Account]) := by
  have hlen : rs.length ≠ 0 := by
    intro h
    rw [List.length_eq_zero.mp h] at hmany
    simp at hmany
  simp [listCmd.resolve, hlen, range_of_many_matches c k upCtx rs hmany]

/-- Resolution of a roster without a robot of the requested name, empty or not. -/
theorem resolve_of_no_match (c : listCmd) (k : Consts) (upCtx : Context) (rs : List Robot)
    (h : ∀ x ∈ rs, x.Name ≠ c.RobotName) :
    listCmd.resolve c k upCtx rs
      = .error (.Errorf k.errFindRobotFmt [c.RobotName, upCtx.Account]) := by
  by_cases hlen : rs.length = 0
  · simp [listCmd.resolve, hlen]
  · simp [listCmd.resolve, hlen, range_of_no_match c k upCtx none rs h]

/-- What `Run` does once the account is an organization and the roster is fetched. -/
theorem Run_of_roster (c : listCmd) (k : Consts) (w : World) (upCtx : Context)
    (a : AccountResponse) (rs : List Robot)
    (hget : w.Get upCtx.Account = .ok a)
    (horg : a.Account.Type' = AccountType.AccountOrganization)
    (hrs : w.ListRobots a.Organization.ID = .ok rs) :
    listCmd.Run c k w upCtx
      = after (.Get upCtx.Account) (after (.ListRobots a.Organization.ID)
          (match listCmd.resolve c k upCtx rs with
          | .error err => ([], .error err)
          | .ok rid => listCmd.tokens c w upCtx rid)) := by
  simp [listCmd.Run, hget, horg, hrs]

/-- The calls of lines 82 to 90: the token listing for `rid` comes first and no other
token listing follows. -/
theorem tokens_trace (c : listCmd) (w : World) (upCtx : Context) (rid : UUID) :
    (listCmd.tokens c w upCtx rid).1.head? = some (.ListTokens rid)
      ∧ ∀ id, Event.ListTokens id ∈ (listCmd.tokens c w upCtx rid).1 → id = rid := by
  unfold listCmd.tokens after printTokens
  constructor
  · rfl
  · intro id hid
    cases hts : w.ListTokens rid with
    | error err => simpa [hts, eq_comm] using hid
    | ok ts =>
      by_cases hlen : ts.DataSet.length = 0
      · simpa [hts, hlen, eq_comm] using hid
      · simp only [hts, hlen] at hid
        simpa [eq_comm] using hid

/-! ## Claims on robot resolution -/

/-- C1: when the account is an organization and the fetched roster holds exactly one
robot `r` of the requested name, at any position and among any robots of other names,
resolution succeeds with the ID of `r`, and `Run` goes on with lines 82 to 90 for that
ID: the third call of the run is the token listing for `r.ID`, and no token listing for
another ID is made. -/
theorem Run_resolves_the_unique_robot (c : listCmd) (k : Consts) (w : World) (upCtx : Context)
    (a : AccountResponse) (rs : List Robot) (r : Robot)
    (hget : w.Get upCtx.Account = .ok a)
    (horg : a.Account.Type' = AccountType.AccountOrganization)
    (hrs : w.ListRobots a.Organization.ID = .ok rs)
    (hr : r ∈ rs) (hname : r.Name = c.RobotName)
    (hone : rs.countP (fun x => decide (x.Name = c.RobotName)) = 1) :
    listCmd.resolve c k upCtx rs = .ok r.ID
      ∧ listCmd.Run c k w upCtx
          = after (.Get upCtx.Account) (after (.ListRobots a.Organization.ID)
              (listCmd.tokens c w upCtx r.ID))
      ∧ (listCmd.Run c k w upCtx).1.take 3
          = [.Get upCtx.Account, .ListRobots a.Organization.ID, .ListTokens r.ID]
      ∧ ∀ id, Event.ListTokens id ∈ (listCmd.Run c k w upCtx).1 → id = r.ID := by
  have hres := resolve_of_one_match c k upCtx r rs hr hname hone
  have hrun : listCmd.Run c k w upCtx
      = after (.Get upCtx.Account) (after (.ListRobots a.Organization.ID)
          (listCmd.tokens c w upCtx r.ID)) := by
    rw [Run_of_roster c k w upCtx a rs hget horg hrs, hres]
  obtain ⟨hhead, honly⟩ := tokens_trace c w upCtx r.ID
  refine ⟨hres, hrun, ?_, ?_⟩
  · rw [hrun]
    cases htr : (listCmd.tokens c w upCtx r.ID).1 with
    | nil => simp [htr] at hhead
    | cons e es =>
      have he : e = .ListTokens r.ID := by simpa [htr] using hhead
      simp [after, htr, he]
  · intro id hid
    rw [hrun] at hid
    simp only [after, List.mem_cons] at hid
    rcases hid with h | h | h
    · cases h
    · cases h
    · exact honly id h

/-- C1 on the roster of scenario 1, and on a roster where `bot1` comes last. -/
theorem Run_resolves_the_unique_robot_witness :
    listCmd.resolve listBot1 sampleConsts acme [bot1] = .ok (sampleID 1)
      ∧ (listCmd.Run listBot1 sampleConsts (sampleWorld [bot3, bot1] [] noon) acme).1.take 3
          = [.Get "acme", .ListRobots 7, .ListTokens (sampleID 1)] :=
  ⟨(Run_resolves_the_unique_robot listBot1 sampleConsts (sampleWorld [bot1] [] noon) acme
      acmeAccount [bot1] bot1 rfl rfl rfl (by decide) rfl (by decide)).1,
   (Run_resolves_the_unique_robot listBot1 sampleConsts (sampleWorld [bot3, bot1] [] noon) acme
      acmeAccount [bot3, bot1] bot1 rfl rfl rfl (by decide) rfl (by decide)).2.2.1⟩

/-- C2: when the account is an organization and the fetched roster holds two or more
robots of the requested name, whatever else it holds, `Run` fails with the error built
from `errMultipleRobotFmt`, the requested name and the account name; its only calls are
the account lookup and the roster fetch, so neither the token listing nor the renderer is
invoked. -/
theorem Run_fails_on_ambiguous_name (c : listCmd) (k : Consts) (w : World) (upCtx : Context)
    (a : AccountResponse) (rs : List Robot)
    (hget : w.Get upCtx.Account = .ok a)
    (horg : a.Account.Type' = AccountType.AccountOrganization)
    (hrs : w.ListRobots a.Organization.ID = .ok rs)
    (hmany : 2 ≤ rs.countP (fun x => decide (x.Name = c.RobotName))) :
    listCmd.Run c k w upCtx
      = ([.Get upCtx.Account, .ListRobots a.Organization.ID],
          .error (.Errorf k.errMultipleRobotFmt [c.RobotName, upCtx.Account])) := by
  rw [Run_of_roster c k w upCtx a rs hget horg hrs,
    resolve_of_many_matches c k upCtx rs hmany]
  rfl

/-- C2 on the roster of scenario 2. -/
theorem Run_fails_on_ambiguous_name_witness :
    listCmd.Run listBot1 sampleConsts (sampleWorld [bot1, bot1Twin] [] noon) acme
      = ([.Get "acme", .ListRobots 7],
          .error (.Errorf "found multiple robots with name %s in %s" ["bot1", "acme"])) :=
  Run_fails_on_ambiguous_name listBot1 sampleConsts (sampleWorld [bot1, bot1Twin] [] noon) acme
    acmeAccount [bot1, bot1Twin] rfl rfl rfl (by decide)

/-- C3: when the account is an organization and the fetched roster holds no robot of the
requested name, `Run` fails with the error built from `errFindRobotFmt`, the requested
name and the account name, and its only calls are the account lookup and the roster
fetch. The empty roster is one such roster: the guard of line 60 and the nil check of
line 78 yield the same error. -/
theorem Run_fails_on_absent_robot (c : listCmd) (k : Consts) (w : World) (upCtx : Context)
    (a : AccountResponse) (rs : List Robot)
    (hget : w.Get upCtx.Account = .ok a)
    (horg : a.Account.Type' = AccountType.AccountOrganization)
    (hrs : w.ListRobots a.Organization.ID = .ok rs)
    (hnone : ∀ x ∈ rs, x.Name ≠ c.RobotName) :
    listCmd.Run c k w upCtx
        = ([.Get upCtx.Account, .ListRobots a.Organization.ID],
            .error (.Errorf k.errFindRobotFmt [c.RobotName, upCtx.Account]))
      ∧ listCmd.resolve c k upCtx rs = listCmd.resolve c k upCtx [] := by
  have hres := resolve_of_no_match c k upCtx rs hnone
  refine ⟨?_, ?_⟩
  · rw [Run_of_roster c k w upCtx a rs hget horg hrs, hres]
    rfl
  · rw [hres]
    rfl

/-- C3 on a roster without `bot1`. -/
theorem Run_fails_on_absent_robot_witness :
    listCmd.Run listBot1 sampleConsts (sampleWorld [bot3] [] noon) acme
        = ([.Get "acme", .ListRobots 7],
            .error (.Errorf "could not find robot %s in account %s" ["bot1", "acme"]))
      ∧ listCmd.resolve listBot1 sampleConsts acme [bot3]
          = listCmd.resolve listBot1 sampleConsts acme [] :=
  Run_fails_on_absent_robot listBot1 sampleConsts (sampleWorld [bot3] [] noon) acme
    acmeAccount [bot3] rfl rfl rfl (by decide)

/-! ## The created column -/

/-- Hours to days, on the nanosecond count. -/
theorem day_eq (e : Int) : e / 3600000000000 / 24 = e / 86400000000000 := by omega
/-- Hours to years, on the nanosecond count. -/
theorem year_eq (e : Int) : e / 3600000000000 / 24 / 365 = e / 31536000000000000 := by omega
/-- Days to years, on the nanosecond count. -/
theorem year_eq2 (e : Int) : e / 86400000000000 / 365 = e / 31536000000000000 := by omega

/-- For an elapsed time that is not negative, `HumanDuration` prints the elapsed time
truncated to the leading unit and, in the ranges of `showsRemainder`, the non-zero
remainder in the next smaller unit. -/
theorem HumanDuration_nonneg (e : Int) (h : 0 ≤ e) :
    HumanDuration e
      = if showsRemainder e = true
            ∧ (e / (leadingUnit e).lower.size) % ((leadingUnit e).size / (leadingUnit e).lower.size) ≠ 0 then
          toString (e / (leadingUnit e).size) ++ (leadingUnit e).suffix
            ++ toString ((e / (leadingUnit e).lower.size) % ((leadingUnit e).size / (leadingUnit e).lower.size))
            ++ (leadingUnit e).lower.suffix
        else toString (e / (leadingUnit e).size) ++ (leadingUnit e).suffix := by
  have h1 : Int.tdiv e Second = e / Second := Int.tdiv_eq_ediv h (by decide)
  have h2 : Int.tdiv e Minute = e / Minute := Int.tdiv_eq_ediv h (by decide)
  have h3 : Int.tdiv e Hour = e / Hour := Int.tdiv_eq_ediv h (by decide)
  have p1 : 0 ≤ e / Second := Int.ediv_nonneg h (by decide)
  have p2 : 0 ≤ e / Minute := Int.ediv_nonneg h (by decide)
  have p3 : 0 ≤ e / Hour := Int.ediv_nonneg h (by decide)
  have h4 : Int.tdiv (e / Hour) 24 = e / Hour / 24 := Int.tdiv_eq_ediv p3 (by decide)
  have p4 : 0 ≤ e / Hour / 24 := Int.ediv_nonneg p3 (by decide)
  have h5 : Int.tdiv (e / Hour / 24) 365 = e / Hour / 24 / 365 := Int.tdiv_eq_ediv p4 (by decide)
  have h6 : Int.tmod (e / Second) 60 = e / Second % 60 := Int.tmod_eq_emod p1 (by decide)
  have h7 : Int.tmod (e / Minute) 60 = e / Minute % 60 := Int.tmod_eq_emod p2 (by decide)
  have h8 : Int.tmod (e / Hour) 24 = e / Hour % 24 := Int.tmod_eq_emod p3 (by decide)
  have h9 : Int.tmod (e / Hour / 24) 365 = e / Hour / 24 % 365 := Int.tmod_eq_emod p4 (by decide)
  have hS : Second = 1000000000 := rfl
  have hM : Minute = 60000000000 := by decide
  have hH : Hour = 3600000000000 := by decide
  have q1 : (60000000000 : Int) / 1000000000 = 60 := by decide
  have q2 : (3600000000000 : Int) / 60000000000 = 60 := by decide
  have q3 : (24 : Int) * 3600000000000 = 86400000000000 := by decide
  have q4 : (86400000000000 : Int) / 3600000000000 = 24 := by decide
  have q5 : (365 : Int) * 86400000000000 = 31536000000000000 := by decide
  have q6 : (31536000000000000 : Int) / 86400000000000 = 365 := by decide
  unfold HumanDuration
  simp only [h1, h2, h3, h4, h5, h6, h7, h8, h9]
  by_cases c0 : e < 120000000000
  · have hu : leadingUnit e = .s := by
      unfold leadingUnit
      simp only [hS, hM, hH]
      split_ifs <;> first | rfl | omega
    have hr : showsRemainder e = false := by
      rw [Bool.eq_false_iff]
      intro hc
      simp only [showsRemainder, hS, hM, hH, Bool.or_eq_true, Bool.and_eq_true, decide_eq_true_eq] at hc
      omega
    have f1 : ¬ e / 1000000000 < -1 := by omega
    have f2 : ¬ e / 1000000000 < 0 := by omega
    have g0 : e / 1000000000 < 60 * 2 := by omega
    rw [hu, hr]
    simp only [TimeUnit.size, TimeUnit.lower, TimeUnit.suffix, hS, hM, hH, f1, f2, g0, if_true, if_false, q1, q2, q3, q4, q5, q6, day_eq, year_eq, year_eq2]
    simp
  · by_cases c1 : e < 600000000000
    · have hu : leadingUnit e = .m := by
        unfold leadingUnit
        simp only [hS, hM, hH]
        split_ifs <;> first | rfl | omega
      have hr : showsRemainder e = true := by
        simp only [showsRemainder, hS, hM, hH, Bool.or_eq_true, Bool.and_eq_true, decide_eq_true_eq]
        omega
      have f1 : ¬ e / 1000000000 < -1 := by omega
      have f2 : ¬ e / 1000000000 < 0 := by omega
      have g0 : ¬ e / 1000000000 < 60 * 2 := by omega
      have g1 : e / 60000000000 < 10 := by omega
      rw [hu, hr]
      simp only [TimeUnit.size, TimeUnit.lower, TimeUnit.suffix, hS, hM, hH, f1, f2, g0, g1, if_true, if_false, q1, q2, q3, q4, q5, q6, day_eq, year_eq, year_eq2]
      split_ifs <;> simp_all [year_eq2]
    · by_cases c2 : e < 10800000000000
      · have hu : leadingUnit e = .m := by
          unfold leadingUnit
          simp only [hS, hM, hH]
          split_ifs <;> first | rfl | omega
        have hr : showsRemainder e = false := by
          rw [Bool.eq_false_iff]
          intro hc
          simp only [showsRemainder, hS, hM, hH, Bool.or_eq_true, Bool.and_eq_true, decide_eq_true_eq] at hc
          omega
        have f1 : ¬ e / 1000000000 < -1 := by omega
        have f2 : ¬ e / 1000000000 < 0 := by omega
        have g0 : ¬ e / 1000000000 < 60 * 2 := by omega
        have g1 : ¬ e / 60000000000 < 10 := by omega
        have g2 : e / 60000000000 < 60 * 3 := by omega
        rw [hu, hr]
        simp only [TimeUnit.size, TimeUnit.lower, TimeUnit.suffix, hS, hM, hH, f1, f2, g0, g1, g2, if_true, if_false, q1, q2, q3, q4, q5, q6, day_eq, year_eq, year_eq2]
        simp
      · by_cases c3 : e < 28800000000000
        · have hu : leadingUnit e = .h := by
            unfold leadingUnit
            simp only [hS, hM, hH]
            split_ifs <;> first | rfl | omega
          have hr : showsRemainder e = true := by
            simp only [showsRemainder, hS, hM, hH, Bool.or_eq_true, Bool.and_eq_true, decide_eq_true_eq]
            omega
          have f1 : ¬ e / 1000000000 < -1 := by omega
          have f2 : ¬ e / 1000000000 < 0 := by omega
          have g0 : ¬ e / 1000000000 < 60 * 2 := by omega
          have g1 : ¬ e / 60000000000 < 10 := by omega
          have g2 : ¬ e / 60000000000 < 60 * 3 := by omega
          have g3 : e / 3600000000000 < 8 := by omega
          rw [hu, hr]
          simp only [TimeUnit.size, TimeUnit.lower, TimeUnit.suffix, hS, hM, hH, f1, f2, g0, g1, g2, g3, if_true, if_false, q1, q2, q3, q4, q5, q6, day_eq, year_eq, year_eq2]
          split_ifs <;> simp_all [year_eq2]
        · by_cases c4 : e < 172800000000000
          · have hu : leadingUnit e = .h := by
              unfold leadingUnit
              simp only [hS, hM, hH]
              split_ifs <;> first | rfl | omega
            have hr : showsRemainder e = false := by
              rw [Bool.eq_false_iff]
              intro hc
              simp only [showsRemainder, hS, hM, hH, Bool.or_eq_true, Bool.and_eq_true, decide_eq_true_eq] at hc
              omega
            have f1 : ¬ e / 1000000000 < -1 := by omega
            have f2 : ¬ e / 1000000000 < 0 := by omega
            have g0 : ¬ e / 1000000000 < 60 * 2 := by omega
            have g1 : ¬ e / 60000000000 < 10 := by omega
            have g2 : ¬ e / 60000000000 < 60 * 3 := by omega
            have g3 : ¬ e / 3600000000000 < 8 := by omega
            have g4 : e / 3600000000000 < 48 := by omega
            rw [hu, hr]
            simp only [TimeUnit.size, TimeUnit.lower, TimeUnit.suffix, hS, hM, hH, f1, f2, g0, g1, g2, g3, g4, if_true, if_false, q1, q2, q3, q4, q5, q6, day_eq, year_eq, year_eq2]
            simp
          · by_cases c5 : e < 691200000000000
            · have hu : leadingUnit e = .d := by
                unfold leadingUnit
                simp only [hS, hM, hH]
                split_ifs <;> first | rfl | omega
              have hr : showsRemainder e = true := by
                simp only [showsRemainder, hS, hM, hH, Bool.or_eq_true, Bool.and_eq_true, decide_eq_true_eq]
                omega
              have f1 : ¬ e / 1000000000 < -1 := by omega
              have f2 : ¬ e / 1000000000 < 0 := by omega
              have g0 : ¬ e / 1000000000 < 60 * 2 := by omega
              have g1 : ¬ e / 60000000000 < 10 := by omega
              have g2 : ¬ e / 60000000000 < 60 * 3 := by omega
              have g3 : ¬ e / 3600000000000 < 8 := by omega
              have g4 : ¬ e / 3600000000000 < 48 := by omega
              have g5 : e / 3600000000000 < 24 * 8 := by omega
              rw [hu, hr]
              simp only [TimeUnit.size, TimeUnit.lower, TimeUnit.suffix, hS, hM, hH, f1, f2, g0, g1, g2, g3, g4, g5, if_true, if_false, q1, q2, q3, q4, q5, q6, day_eq, year_eq, year_eq2]
              split_ifs <;> simp_all [year_eq2]
            · by_cases c6 : e < 63072000000000000
              · have hu : leadingUnit e = .d := by
                  unfold leadingUnit
                  simp only [hS, hM, hH]
                  split_ifs <;> first | rfl | omega
                have hr : showsRemainder e = false := by
                  rw [Bool.eq_false_iff]
                  intro hc
                  simp only [showsRemainder, hS, hM, hH, Bool.or_eq_true, Bool.and_eq_true, decide_eq_true_eq] at hc
                  omega
                have f1 : ¬ e / 1000000000 < -1 := by omega
                have f2 : ¬ e / 1000000000 < 0 := by omega
                have g0 : ¬ e / 1000000000 < 60 * 2 := by omega
                have g1 : ¬ e / 60000000000 < 10 := by omega
                have g2 : ¬ e / 60000000000 < 60 * 3 := by omega
                have g3 : ¬ e / 3600000000000 < 8 := by omega
                have g4 : ¬ e / 3600000000000 < 48 := by omega
                have g5 : ¬ e / 3600000000000 < 24 * 8 := by omega
                have g6 : e / 3600000000000 < 24 * 365 * 2 := by omega
                rw [hu, hr]
                simp only [TimeUnit.size, TimeUnit.lower, TimeUnit.suffix, hS, hM, hH, f1, f2, g0, g1, g2, g3, g4, g5, g6, if_true, if_false, q1, q2, q3, q4, q5, q6, day_eq, year_eq, year_eq2]
                simp
              · by_cases c7 : e < 252288000000000000
                · have hu : leadingUnit e = .y := by
                    unfold leadingUnit
                    simp only [hS, hM, hH]
                    split_ifs <;> first | rfl | omega
                  have hr : showsRemainder e = true := by
                    simp only [showsRemainder, hS, hM, hH, Bool.or_eq_true, Bool.and_eq_true, decide_eq_true_eq]
                    omega
                  have f1 : ¬ e / 1000000000 < -1 := by omega
                  have f2 : ¬ e / 1000000000 < 0 := by omega
                  have g0 : ¬ e / 1000000000 < 60 * 2 := by omega
                  have g1 : ¬ e / 60000000000 < 10 := by omega
                  have g2 : ¬ e / 60000000000 < 60 * 3 := by omega
                  have g3 : ¬ e / 3600000000000 < 8 := by omega
                  have g4 : ¬ e / 3600000000000 < 48 := by omega
                  have g5 : ¬ e / 3600000000000 < 24 * 8 := by omega
                  have g6 : ¬ e / 3600000000000 < 24 * 365 * 2 := by omega
                  have g7 : e / 3600000000000 < 24 * 365 * 8 := by omega
                  rw [hu, hr]
                  simp only [TimeUnit.size, TimeUnit.lower, TimeUnit.suffix, hS, hM, hH, f1, f2, g0, g1, g2, g3, g4, g5, g6, g7, if_true, if_false, q1, q2, q3, q4, q5, q6, day_eq, year_eq, year_eq2]
                  split_ifs <;> simp_all [year_eq2]
                · have hu : leadingUnit e = .y := by
                    unfold leadingUnit
                    simp only [hS, hM, hH]
                    split_ifs <;> first | rfl | omega
                  have hr : showsRemainder e = false := by
                    rw [Bool.eq_false_iff]
                    intro hc
                    simp only [showsRemainder, hS, hM, hH, Bool.or_eq_true, Bool.and_eq_true, decide_eq_true_eq] at hc
                    omega
                  have f1 : ¬ e / 1000000000 < -1 := by omega
                  have f2 : ¬ e / 1000000000 < 0 := by omega
                  have g0 : ¬ e / 1000000000 < 60 * 2 := by omega
                  have g1 : ¬ e / 60000000000 < 10 := by omega
                  have g2 : ¬ e / 60000000000 < 60 * 3 := by omega
                  have g3 : ¬ e / 3600000000000 < 8 := by omega
                  have g4 : ¬ e / 3600000000000 < 48 := by omega
                  have g5 : ¬ e / 3600000000000 < 24 * 8 := by omega
                  have g6 : ¬ e / 3600000000000 < 24 * 365 * 2 := by omega
                  have g7 : ¬ e / 3600000000000 < 24 * 365 * 8 := by omega
                  rw [hu, hr]
                  simp only [TimeUnit.size, TimeUnit.lower, TimeUnit.suffix, hS, hM, hH, f1, f2, g0, g1, g2, g3, g4, g5, g6, g7, if_true, if_false, q1, q2, q3, q4, q5, q6, day_eq, year_eq, year_eq2]
                  simp

/-- An elapsed time of minus two seconds or less is printed as "<invalid>". -/
theorem HumanDuration_invalid (e : Int) (h : e ≤ -2 * Second) :
    HumanDuration e = "<invalid>" := by
  have hS : Second = 1000000000 := rfl
  rw [hS] at h
  have hneg : Int.tdiv e Second = -((-e) / 1000000000) := by
    have h0 : Int.tdiv (-e) 1000000000 = (-e) / 1000000000 :=
      Int.tdiv_eq_ediv (by omega) (by decide)
    have h1 : Int.tdiv (-e) 1000000000 = -(Int.tdiv e 1000000000) := Int.neg_tdiv e 1000000000
    rw [hS]
    omega
  have hlt : Int.tdiv e Second < -1 := by
    rw [hneg]
    omega
  unfold HumanDuration
  simp only [hlt, if_true]

/-- An elapsed time between minus two seconds and zero is printed as "0s". -/
theorem HumanDuration_almost_now (e : Int) (hlo : -2 * Second < e) (hhi : e < 0) :
    HumanDuration e = "0s" := by
  have hS : Second = 1000000000 := rfl
  rw [hS] at hlo
  have hneg : Int.tdiv e Second = -((-e) / 1000000000) := by
    have h0 : Int.tdiv (-e) 1000000000 = (-e) / 1000000000 :=
      Int.tdiv_eq_ediv (by omega) (by decide)
    have h1 : Int.tdiv (-e) 1000000000 = -(Int.tdiv e 1000000000) := Int.neg_tdiv e 1000000000
    rw [hS]
    omega
  have hcases : Int.tdiv e Second = -1 ∨ Int.tdiv e Second = 0 := by
    rw [hneg]
    omega
  unfold HumanDuration
  rcases hcases with hc | hc
  · simp only [hc]
    rw [if_neg (by decide : ¬ ((-1 : Int) < -1)), if_pos (by decide : (-1 : Int) < 0)]
  · simp only [hc]
    rw [if_neg (by decide : ¬ ((0 : Int) < -1)), if_neg (by decide : ¬ ((0 : Int) < 0)),
      if_pos (by decide : (0 : Int) < 60 * 2)]
    decide

/-- The created column of a token whose "createdAt" parses. -/
theorem created_of_parsed (w : World) (i : Nat) (t : DataSet) (ca : Any) (ct : Time)
    (hca : t.Meta.lookup "createdAt" = some ca) (hct : w.Parse (Sprint ca) = some ct) :
    printTokens.c w i t = HumanDuration (Since (w.Now i) ct) := by
  simp [printTokens.c, hca, hct]

/-- Within the range of a `Duration`, `time.Since` is the plain difference. -/
theorem Since_of_in_range (now t : Time) (hlo : minDuration ≤ now.unixNano - t.unixNano)
    (hhi : now.unixNano - t.unixNano ≤ maxDuration) :
    Since now t = now.unixNano - t.unixNano := by
  unfold Since Time.Sub
  rw [if_neg (by omega), if_neg (by omega)]

/-- The rows stored by the loop, read by index. -/
theorem rows_getElem_opt (w : World) (ts : List DataSet) (k i : Nat) :
    (printTokens.rows w k ts)[i]? = (ts[i]?).map (fun t => printTokens.row w (k + i) t) := by
  induction ts generalizing k i with
  | nil => simp [printTokens.rows]
  | cons t ts ih =>
    cases i with
    | zero => simp [printTokens.rows]
    | succ j =>
      simp only [printTokens.rows, List.getElem?_cons_succ]
      rw [ih (k + 1) j]
      have hk : k + 1 + j = k + (j + 1) := by omega
      rw [hk]

/-- The loop stores one row per token. -/
theorem rows_length (w : World) (ts : List DataSet) (k : Nat) :
    (printTokens.rows w k ts).length = ts.length := by
  induction ts generalizing k with
  | nil => rfl
  | cons t ts ih => simp [printTokens.rows, ih]

/-- Every row stored by the loop has three columns. -/
theorem rows_width (w : World) (ts : List DataSet) (k : Nat) :
    (printTokens.rows w k ts).map List.length = List.replicate ts.length 3 := by
  induction ts generalizing k with
  | nil => rfl
  | cons t ts ih => simp [printTokens.rows, printTokens.row, ih, List.replicate_succ]

/-! ## Claims on `printTokens` -/

/-- C4: the created column is total and degrades to the sentinel. Whenever the metadata of
a token lacks the key "createdAt", or the printed form of its value (of whatever dynamic
type) does not parse as an RFC 3339 timestamp, the created column of the token's row is
exactly "n/a"; and this raises no error: `printTokens` on any token list holding the token
returns nil whenever the renderer does. -/
theorem created_degrades_to_sentinel (w : World) (i : Nat) (t : DataSet)
    (h : t.Meta.lookup "createdAt" = none
      ∨ ∃ ca, t.Meta.lookup "createdAt" = some ca ∧ w.Parse (Sprint ca) = none) :
    printTokens.c w i t = "n/a"
      ∧ printTokens.row w i t = [Sprint (index t.AttributeSet "name"), t.ID.String, "n/a"]
      ∧ ∀ ts, t ∈ ts → w.Render (printTokens.data w ts) = none
          → (printTokens w ts).2 = .ok () := by
  have hc : printTokens.c w i t = "n/a" := by
    rcases h with h | ⟨ca, hca, hp⟩
    · simp [printTokens.c, h]
    · simp [printTokens.c, hca, hp]
  refine ⟨hc, ?_, ?_⟩
  · simp [printTokens.row, hc]
  · intro ts _ hrender
    simp [printTokens, hrender]

/-- C4 on a token without "createdAt" (scenario 5) and on a token whose "createdAt" is a
number. -/
theorem created_degrades_to_sentinel_witness :
    printTokens.row (sampleWorld [bot1] [tokUndated] noon) 0 tokUndated
        = ["tok2", "00000000-0000-0000-0000-000000000012", "n/a"]
      ∧ printTokens.c (sampleWorld [bot1] [tokMisdated] noon) 0 tokMisdated = "n/a" :=
  ⟨(created_degrades_to_sentinel (sampleWorld [bot1] [tokUndated] noon) 0 tokUndated
      (Or.inl (by decide))).2.1,
   (created_degrades_to_sentinel (sampleWorld [bot1] [tokMisdated] noon) 0 tokMisdated
      (Or.inr ⟨.other "1654077600", by decide, by decide⟩)).1⟩

/-- C5 fails as stated: a token created 190 seconds ago has a valid RFC 3339 "createdAt",
and its created column is "3m10s", which is two integers with two unit suffixes and not a
single integer followed by a single unit suffix. -/
theorem created_two_groups :
    parseUTC "2022-06-01T11:56:50Z" = some ⟨1654084610000000000⟩
      ∧ Since noon ⟨1654084610000000000⟩ = 190 * Second
      ∧ printTokens.c (sampleWorld [bot1] [tokRecent] noon) 0 tokRecent = "3m10s"
      ∧ singleIntegerUnit (printTokens.c (sampleWorld [bot1] [tokRecent] noon) 0 tokRecent)
          = false := by
  decide

/-- Past the greatest `Duration`, `time.Since` yields the greatest `Duration`. -/
theorem Since_of_above (now t : Time) (h : maxDuration < now.unixNano - t.unixNano) :
    Since now t = maxDuration := by
  have hmin : minDuration = -9223372036854775808 := by decide
  have hmax : maxDuration = 9223372036854775807 := by decide
  rw [hmax] at h
  unfold Since Time.Sub
  rw [if_neg (by rw [hmin]; omega), if_pos (by rw [hmax]; omega)]

/-- Below the least `Duration`, `time.Since` yields the least `Duration`. -/
theorem Since_of_below (now t : Time) (h : now.unixNano - t.unixNano < minDuration) :
    Since now t = minDuration := by
  unfold Since Time.Sub
  rw [if_pos h]

/-- The greatest `Duration` is printed as 292 years. -/
theorem HumanDuration_maxDuration : HumanDuration maxDuration = "292y" := by
  decide

/-- The least `Duration` is printed as "<invalid>". -/
theorem HumanDuration_minDuration : HumanDuration minDuration = "<invalid>" := by
  decide

/-- C5, amended: for every token whose "createdAt" parses as the instant `ct` and every
clock reading, the created column is `HumanDuration` of the elapsed time `e` that
`time.Since` yields: the difference of the two instants when it fits a `Duration`, the
greatest `Duration` when the difference lies above it (the column is then "292y") and
the least `Duration` when the difference lies below it (the column is then
"<invalid>"). The column is "<invalid>" when `e` is minus two seconds or less and "0s"
when `e` lies between minus two seconds and zero. Otherwise it is the integer `e / size`
for the leading unit of `leadingUnit`, truncated and never rounded, followed by that
unit's suffix, and in the ranges of `showsRemainder` a second group follows when it is
not zero: the truncated remainder in the next smaller unit with its suffix. -/
theorem created_is_HumanDuration (w : World) (i : Nat) (t : DataSet) (ca : Any) (ct : Time)
    (e : Int) (hca : t.Meta.lookup "createdAt" = some ca)
    (hct : w.Parse (Sprint ca) = some ct) (he : Since (w.Now i) ct = e) :
    printTokens.c w i t = HumanDuration e
      ∧ (minDuration ≤ (w.Now i).unixNano - ct.unixNano
          → (w.Now i).unixNano - ct.unixNano ≤ maxDuration
          → e = (w.Now i).unixNano - ct.unixNano)
      ∧ (maxDuration < (w.Now i).unixNano - ct.unixNano
          → e = 9223372036854775807 ∧ printTokens.c w i t = "292y")
      ∧ ((w.Now i).unixNano - ct.unixNano < minDuration
          → e = -9223372036854775808 ∧ printTokens.c w i t = "<invalid>")
      ∧ (e ≤ -2 * Second → printTokens.c w i t = "<invalid>")
      ∧ (-2 * Second < e → e < 0 → printTokens.c w i t = "0s")
      ∧ (0 ≤ e → printTokens.c w i t
          = if showsRemainder e = true
                ∧ (e / (leadingUnit e).lower.size)
                    % ((leadingUnit e).size / (leadingUnit e).lower.size) ≠ 0 then
              toString (e / (leadingUnit e).size) ++ (leadingUnit e).suffix
                ++ toString ((e / (leadingUnit e).lower.size)
                    % ((leadingUnit e).size / (leadingUnit e).lower.size))
                ++ (leadingUnit e).lower.suffix
            else toString (e / (leadingUnit e).size) ++ (leadingUnit e).suffix) := by
  have hc : printTokens.c w i t = HumanDuration e := by
    rw [created_of_parsed w i t ca ct hca hct, he]
  refine ⟨hc, ?_, ?_, ?_, ?_, ?_, ?_⟩
  · intro hlo hhi
    rw [← he, Since_of_in_range _ _ hlo hhi]
  · intro h
    have hmax : e = maxDuration := by rw [← he, Since_of_above _ _ h]
    refine ⟨by rw [hmax]; decide, ?_⟩
    rw [hc, hmax, HumanDuration_maxDuration]
  · intro h
    have hmin : e = minDuration := by rw [← he, Since_of_below _ _ h]
    refine ⟨by rw [hmin]; decide, ?_⟩
    rw [hc, hmin, HumanDuration_minDuration]
  · intro h
    rw [hc, HumanDuration_invalid e h]
  · intro hlo hhi
    rw [hc, HumanDuration_almost_now e hlo hhi]
  · intro h
    rw [hc, HumanDuration_nonneg e h]

/-- The amended C5 on three tokens read at `noon`: one created 190 seconds before, one
created in the year 1, for which `time.Since` yields the greatest `Duration`, and one
dated in the year 9999, for which it yields the least. -/
theorem created_is_HumanDuration_witness :
    printTokens.c (sampleWorld [bot1] [tokRecent] noon) 0 tokRecent
        = HumanDuration 190000000000
      ∧ (Since noon ⟨-62135596800000000000⟩ = 9223372036854775807
          ∧ printTokens.c (sampleWorld [bot1] [tokAncient] noon) 0 tokAncient = "292y")
      ∧ (Since noon ⟨253370764800000000000⟩ = -9223372036854775808
          ∧ printTokens.c (sampleWorld [bot1] [tokFuture] noon) 0 tokFuture = "<invalid>") :=
  ⟨(created_is_HumanDuration (sampleWorld [bot1] [tokRecent] noon) 0 tokRecent
      (.string "2022-06-01T11:56:50Z") ⟨1654084610000000000⟩ 190000000000
      (by decide) (by decide) (by decide)).1,
   (created_is_HumanDuration (sampleWorld [bot1] [tokAncient] noon) 0 tokAncient
      (.string "0001-01-01T00:00:00Z") ⟨-62135596800000000000⟩ _
      (by decide) (by decide) rfl).2.2.1 (by decide),
   (created_is_HumanDuration (sampleWorld [bot1] [tokFuture] noon) 0 tokFuture
      (.string "9999-01-01T00:00:00Z") ⟨253370764800000000000⟩ _
      (by decide) (by decide) rfl).2.2.2.1 (by decide)⟩

/-- From ten minutes to three hours `HumanDuration` prints whole minutes only. -/
theorem HumanDuration_minutes (e : Int) (hlo : 10 * Minute ≤ e) (hhi : e < 3 * Hour) :
    HumanDuration e = toString (e / Minute) ++ "m" := by
  have hM : Minute = 60000000000 := by decide
  have hH : Hour = 3600000000000 := by decide
  rw [hM] at hlo
  rw [hH] at hhi
  have hu : leadingUnit e = .m := by
    unfold leadingUnit
    simp only [hM, hH]
    split_ifs <;> first | rfl | omega
  have hr : showsRemainder e = false := by
    rw [Bool.eq_false_iff]
    intro hc
    simp only [showsRemainder, hM, hH, Bool.or_eq_true, Bool.and_eq_true,
      decide_eq_true_eq] at hc
    omega
  rw [HumanDuration_nonneg e (by omega), hu, hr]
  simp [TimeUnit.size, TimeUnit.suffix]

/-- C6 fails as stated: the token of scenario 3, created exactly 7200 seconds before the
clock reading, gets the row with created column "120m", not "2h". -/
theorem row_of_scenario_3 :
    parseUTC "2022-06-01T10:00:00Z" = some ⟨noon.unixNano - 7200 * Second⟩
      ∧ printTokens.row (sampleWorld [bot1] [tok1] noon) 0 tok1
          = ["tok1", "00000000-0000-0000-0000-000000000011", "120m"]
      ∧ printTokens.row (sampleWorld [bot1] [tok1] noon) 0 tok1
          ≠ ["tok1", "00000000-0000-0000-0000-000000000011", "2h"] := by
  decide

/-- C6, amended: for every token with attribute "name" equal to the string `n` and with a
"createdAt" that parses as the instant `ct`, if the clock reads 7200 seconds after `ct`
(or less than a second more, the part that an RFC 3339 rendering to whole seconds drops),
the row produced by `printTokens` is `[n, id, "120m"]` with `id` the string form of the
token's ID: `HumanDuration` counts in minutes up to three hours. -/
theorem row_created_7200s_ago (w : World) (i : Nat) (t : DataSet) (n : String) (ca : Any)
    (ct : Time) (hn : t.AttributeSet.lookup "name" = some (.string n))
    (hca : t.Meta.lookup "createdAt" = some ca) (hct : w.Parse (Sprint ca) = some ct)
    (hlo : ct.unixNano + 7200 * Second ≤ (w.Now i).unixNano)
    (hhi : (w.Now i).unixNano < ct.unixNano + 7201 * Second) :
    printTokens.row w i t = [n, t.ID.String, "120m"] := by
  have hS : Second = 1000000000 := rfl
  have hM : Minute = 60000000000 := by decide
  have hH : Hour = 3600000000000 := by decide
  have hmin : minDuration = -9223372036854775808 := by decide
  have hmax : maxDuration = 9223372036854775807 := by decide
  rw [hS] at hlo hhi
  have hsince : Since (w.Now i) ct = (w.Now i).unixNano - ct.unixNano :=
    Since_of_in_range _ _ (by rw [hmin]; omega) (by rw [hmax]; omega)
  have hc : printTokens.c w i t = "120m" := by
    rw [created_of_parsed w i t ca ct hca hct, hsince,
      HumanDuration_minutes _ (by rw [hM]; omega) (by rw [hH]; omega)]
    have hq : ((w.Now i).unixNano - ct.unixNano) / Minute = 120 := by
      rw [hM]
      omega
    rw [hq]
    decide
  simp [printTokens.row, index, hn, hc, Sprint]

/-- The amended C6 on the token of scenario 3. -/
theorem row_created_7200s_ago_witness :
    printTokens.row (sampleWorld [bot1] [tok1] noon) 0 tok1
      = ["tok1", (sampleID 17).String, "120m"] :=
  row_created_7200s_ago (sampleWorld [bot1] [tok1] noon) 0 tok1 "tok1"
    (.string "2022-06-01T10:00:00Z") ⟨1654077600000000000⟩
    (by decide) (by decide) (by decide) (by decide) (by decide)

/-- C7: for every token list `ts`, the table that `printTokens` hands to the renderer, in
one rendering with the header flag set, has `len(ts) + 1` rows; row 0 is the header
("NAME", "ID", "CREATED"), and row `i + 1` is the row of token `ts[i]`, of three cells.
The first is the printed form of the value of its attribute "name" ("<nil>" when the key
is absent). The second is the string form of its ID. The third is the created value:
"n/a" when the metadata lacks "createdAt" or its printed value does not parse, else
`HumanDuration` of the time since the parsed instant at the clock reading of iteration
`i`. The rows are in the order of the tokens, there is no row past the last token, and
every row has exactly three columns. -/
theorem printTokens_table (w : World) (ts : List DataSet) :
    (printTokens w ts).1 = [.Render true (printTokens.data w ts)]
      ∧ (printTokens.data w ts).length = ts.length + 1
      ∧ (printTokens.data w ts)[0]? = some ["NAME", "ID", "CREATED"]
      ∧ (∀ i, (printTokens.data w ts)[i + 1]?
          = (ts[i]?).map (fun t =>
              [match t.AttributeSet.lookup "name" with
                | some v => Sprint v
                | none => "<nil>",
               t.ID.String,
               match t.Meta.lookup "createdAt" with
                | none => "n/a"
                | some ca =>
                  match w.Parse (Sprint ca) with
                  | none => "n/a"
                  | some ct => HumanDuration (Since (w.Now i) ct)]))
      ∧ (printTokens.data w ts).map List.length = List.replicate (ts.length + 1) 3 := by
  refine ⟨rfl, ?_, ?_, ?_, ?_⟩
  · simp [printTokens.data, rows_length]
  · simp [printTokens.data]
  · intro i
    simp only [printTokens.data, List.getElem?_cons_succ]
    rw [rows_getElem_opt w ts 0 i]
    cases hi : ts[i]? with
    | none => rfl
    | some t =>
      simp only [Option.map_some', Nat.zero_add, printTokens.row, printTokens.c, index]
      cases hn : t.AttributeSet.lookup "name" with
      | none => rfl
      | some v => rfl
  · simp [printTokens.data, rows_width, List.replicate_succ]

/-- C7 on a list of four tokens read at `noon`: a named token created two hours before,
a token without "createdAt", a token without "name", and a token whose name is a
boolean and whose date lies in the future. -/
theorem printTokens_table_witness :
    (printTokens (sampleWorld [bot1] [] noon) [tok1, tokUndated, tokNameless, tokFuture]).1
        = [.Render true (printTokens.data (sampleWorld [bot1] [] noon)
            [tok1, tokUndated, tokNameless, tokFuture])]
      ∧ (printTokens.data (sampleWorld [bot1] [] noon)
          [tok1, tokUndated, tokNameless, tokFuture]).length = 5
      ∧ (printTokens.data (sampleWorld [bot1] [] noon)
          [tok1, tokUndated, tokNameless, tokFuture])[0]? = some ["NAME", "ID", "CREATED"]
      ∧ (printTokens.data (sampleWorld [bot1] [] noon)
          [tok1, tokUndated, tokNameless, tokFuture])[1]?
          = some ["tok1", "00000000-0000-0000-0000-000000000011", "120m"]
      ∧ (printTokens.data (sampleWorld [bot1] [] noon)
          [tok1, tokUndated, tokNameless, tokFuture])[2]?
          = some ["tok2", "00000000-0000-0000-0000-000000000012", "n/a"]
      ∧ (printTokens.data (sampleWorld [bot1] [] noon)
          [tok1, tokUndated, tokNameless, tokFuture])[3]?
          = some ["<nil>", "00000000-0000-0000-0000-000000000015", "3m10s"]
      ∧ (printTokens.data (sampleWorld [bot1] [] noon)
          [tok1, tokUndated, tokNameless, tokFuture])[4]?
          = some ["true", "00000000-0000-0000-0000-000000000017", "<invalid>"]
      ∧ (printTokens.data (sampleWorld [bot1] [] noon)
          [tok1, tokUndated, tokNameless, tokFuture])[5]? = none :=
  have h := printTokens_table (sampleWorld [bot1] [] noon)
    [tok1, tokUndated, tokNameless, tokFuture]
  ⟨h.1, h.2.1, h.2.2.1,
    (h.2.2.2.1 0).trans (by decide), (h.2.2.2.1 1).trans (by decide),
    (h.2.2.2.1 2).trans (by decide), (h.2.2.2.1 3).trans (by decide),
    (h.2.2.2.1 4).trans (by decide)⟩

/-! ## Claims on the sequencing of `Run` -/

/-- The text that `fmt.Sprintf` makes of the "No tokens found" format. -/
theorem Sprintf_no_tokens (n a : String) :
    Sprintf "No tokens found for robot %s in %s" [n, a]
      = some ("No tokens found for robot " ++ n ++ " in " ++ a) := by
  simp only [Sprintf, Sprintf.scan]
  simp
  apply String.ext
  simp [String.data_append]

/-- An error that leaves the loop is the one built from `errMultipleRobotFmt`. -/
theorem range_error (c : listCmd) (k : Consts) (upCtx : Context) (rid : Option UUID)
    (rs : List Robot) (err : Error) (h : listCmd.range c k upCtx rid rs = .error err) :
    err = .Errorf k.errMultipleRobotFmt [c.RobotName, upCtx.Account] := by
  induction rs generalizing rid with
  | nil => simp [listCmd.range] at h
  | cons x xs ih =>
    by_cases hx : x.Name = c.RobotName
    · cases rid with
      | none =>
        simp only [listCmd.range, hx, if_true, ne_eq, not_true_eq_false, if_false] at h
        exact ih (some x.ID) h
      | some id =>
        simp [listCmd.range, hx] at h
        exact h.symm
    · simp only [listCmd.range, hx, if_false] at h
      exact ih rid h

/-- An error of the resolution step is made by `errors.Errorf`. -/
theorem resolve_error (c : listCmd) (k : Consts) (upCtx : Context) (rs : List Robot)
    (err : Error) (h : listCmd.resolve c k upCtx rs = .error err) :
    ∃ format, err = .Errorf format [c.RobotName, upCtx.Account] := by
  unfold listCmd.resolve at h
  by_cases hlen : rs.length = 0
  · simp only [hlen, if_true] at h
    exact ⟨k.errFindRobotFmt, by simpa [eq_comm] using h⟩
  · simp only [hlen, if_false] at h
    cases hr : listCmd.range c k upCtx none rs with
    | error e =>
      simp only [hr] at h
      have he := range_error c k upCtx none rs e hr
      exact ⟨k.errMultipleRobotFmt, by simpa [he, eq_comm] using h⟩
    | ok rid =>
      cases rid with
      | none =>
        simp only [hr] at h
        exact ⟨k.errFindRobotFmt, by simpa [eq_comm] using h⟩
      | some id => simp [hr] at h

/-- An error of lines 82 to 90 is one passed on from a collaborator. -/
theorem tokens_error (c : listCmd) (w : World) (upCtx : Context) (rid : UUID) (err : Error)
    (h : (listCmd.tokens c w upCtx rid).2 = .error err) : ∃ e, err = .passed e := by
  unfold listCmd.tokens after at h
  cases hts : w.ListTokens rid with
  | error e =>
    simp only [hts] at h
    exact ⟨e, by simpa [eq_comm] using h⟩
  | ok ts =>
    by_cases hlen : ts.DataSet.length = 0
    · simp [hts, hlen] at h
    · simp only [hts, hlen, if_false, printTokens] at h
      cases hrender : w.Render (printTokens.data w ts.DataSet) with
      | none => simp [hrender] at h
      | some e =>
        simp only [hrender] at h
        exact ⟨e, by simpa [eq_comm] using h⟩

/-- C8: when the account is an organization, the roster holds exactly one robot `r` of the
requested name and the token listing for `r` succeeds with an empty data set, `Run` makes
the three remote calls and then exactly one `Printfln` call, with the format
"No tokens found for robot %s in %s", the requested robot name and the account name; the
printed text is "No tokens found for robot <name> in <account>"; `Run` returns nil and
the renderer is not invoked. -/
theorem Run_reports_no_tokens (c : listCmd) (k : Consts) (w : World) (upCtx : Context)
    (a : AccountResponse) (rs : List Robot) (r : Robot) (ts : RobotTokensResponse)
    (hget : w.Get upCtx.Account = .ok a)
    (horg : a.Account.Type' = AccountType.AccountOrganization)
    (hrs : w.ListRobots a.Organization.ID = .ok rs)
    (hr : r ∈ rs) (hname : r.Name = c.RobotName)
    (hone : rs.countP (fun x => decide (x.Name = c.RobotName)) = 1)
    (hts : w.ListTokens r.ID = .ok ts) (hempty : ts.DataSet.length = 0) :
    listCmd.Run c k w upCtx
        = ([.Get upCtx.Account, .ListRobots a.Organization.ID, .ListTokens r.ID,
            .Printfln "No tokens found for robot %s in %s" [c.RobotName, upCtx.Account]],
           .ok ())
      ∧ Sprintf "No tokens found for robot %s in %s" [c.RobotName, upCtx.Account]
          = some ("No tokens found for robot " ++ c.RobotName ++ " in " ++ upCtx.Account) := by
  refine ⟨?_, Sprintf_no_tokens c.RobotName upCtx.Account⟩
  rw [Run_of_roster c k w upCtx a rs hget horg hrs,
    resolve_of_one_match c k upCtx r rs hr hname hone]
  simp [listCmd.tokens, after, hts, hempty]

/-- C8 on scenario 4: `bot1` has no tokens. -/
theorem Run_reports_no_tokens_witness :
    listCmd.Run listBot1 sampleConsts (sampleWorld [bot3, bot1] [] noon) acme
        = ([.Get "acme", .ListRobots 7, .ListTokens (sampleID 1),
            .Printfln "No tokens found for robot %s in %s" ["bot1", "acme"]], .ok ())
      ∧ Sprintf "No tokens found for robot %s in %s" ["bot1", "acme"]
          = some "No tokens found for robot bot1 in acme" :=
  Run_reports_no_tokens listBot1 sampleConsts (sampleWorld [bot3, bot1] [] noon) acme
    acmeAccount [bot3, bot1] bot1 ⟨[]⟩ rfl rfl rfl (by decide) rfl (by decide) rfl rfl

/-- C9: when the account lookup succeeds with an account that is not an organization,
`Run` fails with `errors.New(errUserAccount)` and the account lookup is its only call: no
roster fetch, no token fetch, no printing and no rendering. Conversely `Run` returns that
error only when the account lookup succeeded with an account that is not an
organization. -/
theorem Run_rejects_user_account (c : listCmd) (k : Consts) (w : World) (upCtx : Context) :
    (∀ a, w.Get upCtx.Account = .ok a
        → a.Account.Type' ≠ AccountType.AccountOrganization
        → listCmd.Run c k w upCtx = ([.Get upCtx.Account], .error (.New k.errUserAccount)))
      ∧ ((listCmd.Run c k w upCtx).2 = .error (.New k.errUserAccount)
        → ∃ a, w.Get upCtx.Account = .ok a
            ∧ a.Account.Type' ≠ AccountType.AccountOrganization) := by
  constructor
  · intro a hget hkind
    simp [listCmd.Run, after, hget, hkind]
  · intro h
    cases hget : w.Get upCtx.Account with
    | error e => simp [listCmd.Run, after, hget] at h
    | ok a =>
      by_cases hkind : a.Account.Type' = AccountType.AccountOrganization
      · exfalso
        cases hrs : w.ListRobots a.Organization.ID with
        | error e => simp [listCmd.Run, after, hget, hkind, hrs] at h
        | ok rs =>
          rw [Run_of_roster c k w upCtx a rs hget hkind hrs] at h
          cases hres : listCmd.resolve c k upCtx rs with
          | error err =>
            obtain ⟨format, herr⟩ := resolve_error c k upCtx rs err hres
            simp [after, hres, herr] at h
          | ok rid =>
            simp only [after, hres] at h
            obtain ⟨e, he⟩ := tokens_error c w upCtx rid _ h
            cases he
      · exact ⟨a, rfl, hkind⟩

/-- C9 on a user account. -/
theorem Run_rejects_user_account_witness :
    listCmd.Run listBot1 sampleConsts worldUser acme
      = ([.Get "acme"],
          .error (.New "robots are not currently supported for user accounts")) :=
  (Run_rejects_user_account listBot1 sampleConsts worldUser acme).1
    ⟨⟨.AccountUser⟩, ⟨0⟩⟩ rfl (by decide)

/-- C10: an error `e` of a remote call is returned by `Run` as it is, and the failed call
is the last call of the run. If the account lookup fails, it is the only call. If the
roster fetch fails, the calls are the account lookup and the roster fetch. If the token
listing fails, the calls are the account lookup, the roster fetch and the token listing.
In each case nothing is printed and the renderer is not invoked. -/
theorem Run_passes_remote_error (c : listCmd) (k : Consts) (w : World) (upCtx : Context)
    (e : Upstream) :
    (w.Get upCtx.Account = .error e
        → listCmd.Run c k w upCtx = ([.Get upCtx.Account], .error (.passed e)))
      ∧ (∀ a, w.Get upCtx.Account = .ok a
          → a.Account.Type' = AccountType.AccountOrganization
          → w.ListRobots a.Organization.ID = .error e
          → listCmd.Run c k w upCtx
              = ([.Get upCtx.Account, .ListRobots a.Organization.ID], .error (.passed e)))
      ∧ (∀ a rs rid, w.Get upCtx.Account = .ok a
          → a.Account.Type' = AccountType.AccountOrganization
          → w.ListRobots a.Organization.ID = .ok rs
          → listCmd.resolve c k upCtx rs = .ok rid
          → w.ListTokens rid = .error e
          → listCmd.Run c k w upCtx
              = ([.Get upCtx.Account, .ListRobots a.Organization.ID, .ListTokens rid],
                  .error (.passed e))) := by
  refine ⟨?_, ?_, ?_⟩
  · intro hget
    simp [listCmd.Run, after, hget]
  · intro a hget hkind hrs
    simp [listCmd.Run, after, hget, hkind, hrs]
  · intro a rs rid hget hkind hrs hres hts
    rw [Run_of_roster c k w upCtx a rs hget hkind hrs, hres]
    simp [listCmd.tokens, after, hts]

/-- C10 on three worlds, one per failing remote call. -/
theorem Run_passes_remote_error_witness :
    listCmd.Run listBot1 sampleConsts worldNoAccount acme
        = ([.Get "acme"], .error (.passed refused))
      ∧ listCmd.Run listBot1 sampleConsts worldNoRoster acme
        = ([.Get "acme", .ListRobots 7], .error (.passed refused))
      ∧ listCmd.Run listBot1 sampleConsts worldNoTokens acme
        = ([.Get "acme", .ListRobots 7, .ListTokens (sampleID 1)], .error (.passed refused)) :=
  ⟨(Run_passes_remote_error listBot1 sampleConsts worldNoAccount acme refused).1 rfl,
   (Run_passes_remote_error listBot1 sampleConsts worldNoRoster acme refused).2.1
      acmeAccount rfl rfl rfl,
   (Run_passes_remote_error listBot1 sampleConsts worldNoTokens acme refused).2.2
      acmeAccount [bot1] (sampleID 1) rfl rfl rfl rfl rfl⟩

/-! ## Resolution by the robots of the requested name -/

/-- Resolution is decided by the sub-roster of the robots of the requested name. -/
theorem resolve_eq_outcomeOfMatches (c : listCmd) (k : Consts) (upCtx : Context)
    (rs : List Robot) :
    listCmd.resolve c k upCtx rs
      = outcomeOfMatches c k upCtx (rs.filter (fun x => decide (x.Name = c.RobotName))) := by
  have hcount : rs.countP (fun x => decide (x.Name = c.RobotName))
      = (rs.filter (fun x => decide (x.Name = c.RobotName))).length :=
    List.countP_eq_length_filter _ _
  cases hf : rs.filter (fun x => decide (x.Name = c.RobotName)) with
  | nil =>
    have hnone : ∀ x ∈ rs, x.Name ≠ c.RobotName := by
      intro x hx hn
      have hmem : x ∈ rs.filter (fun x => decide (x.Name = c.RobotName)) :=
        List.mem_filter.mpr ⟨hx, by simpa using hn⟩
      rw [hf] at hmem
      simp at hmem
    rw [resolve_of_no_match c k upCtx rs hnone]
    rfl
  | cons r ms =>
    have hmem : r ∈ rs.filter (fun x => decide (x.Name = c.RobotName)) := by
      rw [hf]
      exact List.mem_cons_self r ms
    obtain ⟨hr, hn⟩ := List.mem_filter.mp hmem
    have hname : r.Name = c.RobotName := by simpa using hn
    cases ms with
    | nil =>
      have hone : rs.countP (fun x => decide (x.Name = c.RobotName)) = 1 := by
        rw [hcount, hf]
        rfl
      rw [resolve_of_one_match c k upCtx r rs hr hname hone]
      rfl
    | cons r2 ms2 =>
      have hmany : 2 ≤ rs.countP (fun x => decide (x.Name = c.RobotName)) := by
        rw [hcount, hf]
        simp
      rw [resolve_of_many_matches c k upCtx rs hmany]
      rfl

/-- Resolution succeeds with `rid` exactly when the roster holds one robot of the
requested name and `rid` is its ID. -/
theorem resolve_ok_iff (c : listCmd) (k : Consts) (upCtx : Context) (rs : List Robot)
    (rid : UUID) :
    listCmd.resolve c k upCtx rs = .ok rid
      ↔ ∃ r, r ∈ rs ∧ r.Name = c.RobotName
          ∧ rs.countP (fun x => decide (x.Name = c.RobotName)) = 1 ∧ r.ID = rid := by
  constructor
  · intro h
    have hcount : rs.countP (fun x => decide (x.Name = c.RobotName))
        = (rs.filter (fun x => decide (x.Name = c.RobotName))).length :=
      List.countP_eq_length_filter _ _
    rw [resolve_eq_outcomeOfMatches] at h
    cases hf : rs.filter (fun x => decide (x.Name = c.RobotName)) with
    | nil => simp [hf, outcomeOfMatches] at h
    | cons r ms =>
      cases ms with
      | nil =>
        have hmem : r ∈ rs.filter (fun x => decide (x.Name = c.RobotName)) := by
          rw [hf]
          exact List.mem_cons_self r []
        obtain ⟨hr, hn⟩ := List.mem_filter.mp hmem
        have hid : r.ID = rid := by simpa [hf, outcomeOfMatches] using h
        exact ⟨r, hr, by simpa using hn, by rw [hcount, hf]; rfl, hid⟩
      | cons r2 ms2 => simp [hf, outcomeOfMatches] at h
  · rintro ⟨r, hr, hname, hone, hid⟩
    rw [resolve_of_one_match c k upCtx r rs hr hname hone, hid]

/-- The outcome read off the robots of the requested name does not depend on their
order. -/
theorem outcomeOfMatches_perm (c : listCmd) (k : Consts) (upCtx : Context)
    (ms ms' : List Robot) (h : ms.Perm ms') :
    outcomeOfMatches c k upCtx ms = outcomeOfMatches c k upCtx ms' := by
  have hlen : ms.length = ms'.length := h.length_eq
  match ms, ms', h, hlen with
  | [], [], _, _ => rfl
  | [r], [r'], h, _ =>
    have hr : r' = r := by
      have hmem : r' ∈ [r] := h.symm.subset (List.mem_cons_self r' [])
      simpa using hmem
    rw [hr]
  | _ :: _ :: _, _ :: _ :: _, _, _ => rfl
  | [], _ :: _, _, hlen => simp at hlen
  | _ :: _, [], _, hlen => simp at hlen
  | [_], _ :: _ :: _, _, hlen => simp at hlen
  | _ :: _ :: _, [_], _, hlen => simp at hlen

/-- The rows built by `printTokens` depend on the world through the parser and the clock
only. -/
theorem rows_congr (w w' : World) (hparse : w'.Parse = w.Parse) (hnow : w'.Now = w.Now)
    (ts : List DataSet) (i : Nat) :
    printTokens.rows w' i ts = printTokens.rows w i ts := by
  induction ts generalizing i with
  | nil => rfl
  | cons t ts ih =>
    simp only [printTokens.rows, printTokens.row, printTokens.c, hparse, hnow, ih]

/-- Lines 82 to 90 do not read the roster service. -/
theorem tokens_congr (c : listCmd) (w : World) (upCtx : Context) (rid : UUID)
    (f : Nat → Except Upstream (List Robot)) :
    listCmd.tokens c { w with ListRobots := f } upCtx rid = listCmd.tokens c w upCtx rid := by
  have hdata : ∀ ts, printTokens.data { w with ListRobots := f } ts = printTokens.data w ts := by
    intro ts
    simp only [printTokens.data, rows_congr w { w with ListRobots := f } rfl rfl ts 0]
  unfold listCmd.tokens
  cases hts : w.ListTokens rid with
  | error err => simp [hts]
  | ok ts => simp [hts, printTokens, hdata]

/-! ## When the renderer is invoked -/

/-- The run in which every step succeeds up to a non-empty token set: the three remote
calls, then one rendering, whose error is the result. -/
theorem Run_of_tokens (c : listCmd) (k : Consts) (w : World) (upCtx : Context)
    (a : AccountResponse) (rs : List Robot) (r : Robot) (ts : RobotTokensResponse)
    (hget : w.Get upCtx.Account = .ok a)
    (horg : a.Account.Type' = AccountType.AccountOrganization)
    (hrs : w.ListRobots a.Organization.ID = .ok rs)
    (hr : r ∈ rs) (hname : r.Name = c.RobotName)
    (hone : rs.countP (fun x => decide (x.Name = c.RobotName)) = 1)
    (hts : w.ListTokens r.ID = .ok ts) (hlen : ts.DataSet.length ≠ 0) :
    listCmd.Run c k w upCtx
      = ([.Get upCtx.Account, .ListRobots a.Organization.ID, .ListTokens r.ID,
          .Render true (printTokens.data w ts.DataSet)],
         match w.Render (printTokens.data w ts.DataSet) with
         | none => .ok ()
         | some err => .error (.passed err)) := by
  rw [Run_of_roster c k w upCtx a rs hget horg hrs,
    resolve_of_one_match c k upCtx r rs hr hname hone]
  simp [listCmd.tokens, after, hts, hlen, printTokens]

/-- A run makes a rendering only if every step up to a non-empty token set succeeded. -/
theorem Run_render_only_of_tokens (c : listCmd) (k : Consts) (w : World) (upCtx : Context)
    (e : Event) (he : e ∈ (listCmd.Run c k w upCtx).1) (hrender : e.isRender = true) :
    ∃ a rs r ts, w.Get upCtx.Account = .ok a
      ∧ a.Account.Type' = AccountType.AccountOrganization
      ∧ w.ListRobots a.Organization.ID = .ok rs
      ∧ r ∈ rs ∧ r.Name = c.RobotName
      ∧ rs.countP (fun x => decide (x.Name = c.RobotName)) = 1
      ∧ w.ListTokens r.ID = .ok ts ∧ ts.DataSet.length ≠ 0 := by
  cases hget : w.Get upCtx.Account with
  | error err =>
    simp [listCmd.Run, after, hget] at he
    rw [he] at hrender
    simp [Event.isRender] at hrender
  | ok a =>
    by_cases horg : a.Account.Type' = AccountType.AccountOrganization
    · cases hrs : w.ListRobots a.Organization.ID with
      | error err =>
        simp [listCmd.Run, after, hget, horg, hrs] at he
        rcases he with he | he <;> rw [he] at hrender <;> simp [Event.isRender] at hrender
      | ok rs =>
        rw [Run_of_roster c k w upCtx a rs hget horg hrs] at he
        cases hres : listCmd.resolve c k upCtx rs with
        | error err =>
          simp [after, hres] at he
          rcases he with he | he <;> rw [he] at hrender <;> simp [Event.isRender] at hrender
        | ok rid =>
          obtain ⟨r, hr, hname, hone, hid⟩ := (resolve_ok_iff c k upCtx rs rid).mp hres
          subst hid
          cases hts : w.ListTokens r.ID with
          | error err =>
            simp [after, hres, listCmd.tokens, hts] at he
            rcases he with he | he | he <;> rw [he] at hrender <;>
              simp [Event.isRender] at hrender
          | ok ts =>
            by_cases hlen : ts.DataSet.length = 0
            · simp [after, hres, listCmd.tokens, hts, hlen] at he
              rcases he with he | he | he | he <;> rw [he] at hrender <;>
                simp [Event.isRender] at hrender
            · exact ⟨a, rs, r, ts, rfl, horg, hrs, hr, hname, hone, hts, hlen⟩
    · simp [listCmd.Run, after, hget, horg] at he
      rw [he] at hrender
      simp [Event.isRender] at hrender

/-! ## Claims on rendering, nameless tokens and the roster -/

/-- C11: a run invokes the renderer at most once. It invokes it exactly when the account
lookup succeeded with an organization, the roster fetch succeeded with exactly one robot
of the requested name, and the token listing for that robot succeeded with a non-empty
data set; the run then consists of the three remote calls and one rendering, and the
result of `Run` is the renderer's result (its error passed on, or nil). A failing run
in which a rendering was made is a run whose rendering failed, with that very error: in
every other failing run no table is rendered. -/
theorem Run_renders_iff (c : listCmd) (k : Consts) (w : World) (upCtx : Context) :
    (listCmd.Run c k w upCtx).1.countP Event.isRender ≤ 1
      ∧ ((∃ e ∈ (listCmd.Run c k w upCtx).1, e.isRender = true)
          ↔ ∃ a rs r ts, w.Get upCtx.Account = .ok a
              ∧ a.Account.Type' = AccountType.AccountOrganization
              ∧ w.ListRobots a.Organization.ID = .ok rs
              ∧ r ∈ rs ∧ r.Name = c.RobotName
              ∧ rs.countP (fun x => decide (x.Name = c.RobotName)) = 1
              ∧ w.ListTokens r.ID = .ok ts ∧ ts.DataSet.length ≠ 0)
      ∧ (∀ a rs r ts, w.Get upCtx.Account = .ok a
          → a.Account.Type' = AccountType.AccountOrganization
          → w.ListRobots a.Organization.ID = .ok rs
          → r ∈ rs → r.Name = c.RobotName
          → rs.countP (fun x => decide (x.Name = c.RobotName)) = 1
          → w.ListTokens r.ID = .ok ts → ts.DataSet.length ≠ 0
          → listCmd.Run c k w upCtx
              = ([.Get upCtx.Account, .ListRobots a.Organization.ID, .ListTokens r.ID,
                  .Render true (printTokens.data w ts.DataSet)],
                 match w.Render (printTokens.data w ts.DataSet) with
                 | none => .ok ()
                 | some err => .error (.passed err)))
      ∧ (∀ err e, (listCmd.Run c k w upCtx).2 = .error err
          → e ∈ (listCmd.Run c k w upCtx).1 → e.isRender = true
          → ∃ up data, e = .Render true data ∧ w.Render data = some up
              ∧ err = .passed up) := by
  have hshape : ∀ e ∈ (listCmd.Run c k w upCtx).1, e.isRender = true →
      ∃ org rid data, listCmd.Run c k w upCtx
        = ([.Get upCtx.Account, .ListRobots org, .ListTokens rid, .Render true data],
           match w.Render data with
           | none => .ok ()
           | some err => .error (.passed err)) := by
    intro e he hrender
    obtain ⟨a, rs, r, ts, hget, horg, hrs, hr, hname, hone, hts, hlen⟩ :=
      Run_render_only_of_tokens c k w upCtx e he hrender
    exact ⟨a.Organization.ID, r.ID, printTokens.data w ts.DataSet,
      Run_of_tokens c k w upCtx a rs r ts hget horg hrs hr hname hone hts hlen⟩
  refine ⟨?_, ?_, ?_, ?_⟩
  · by_cases hany : ∃ e ∈ (listCmd.Run c k w upCtx).1, e.isRender = true
    · obtain ⟨e, he, hrender⟩ := hany
      obtain ⟨org, rid, data, hrun⟩ := hshape e he hrender
      rw [hrun]
      simp [Event.isRender]
    · have hzero : (listCmd.Run c k w upCtx).1.countP Event.isRender = 0 := by
        rw [List.countP_eq_zero]
        intro e he hrender
        exact hany ⟨e, he, hrender⟩
      omega
  · constructor
    · rintro ⟨e, he, hrender⟩
      exact Run_render_only_of_tokens c k w upCtx e he hrender
    · rintro ⟨a, rs, r, ts, hget, horg, hrs, hr, hname, hone, hts, hlen⟩
      rw [Run_of_tokens c k w upCtx a rs r ts hget horg hrs hr hname hone hts hlen]
      exact ⟨.Render true (printTokens.data w ts.DataSet), by simp, rfl⟩
  · intro a rs r ts hget horg hrs hr hname hone hts hlen
    exact Run_of_tokens c k w upCtx a rs r ts hget horg hrs hr hname hone hts hlen
  · intro err e herr he hrender
    obtain ⟨org, rid, data, hrun⟩ := hshape e he hrender
    rw [hrun] at herr he
    have hev : e = .Render true data := by
      simp only [List.mem_cons, List.mem_singleton, List.not_mem_nil, or_false] at he
      rcases he with he | he | he | he
      · rw [he] at hrender
        simp [Event.isRender] at hrender
      · rw [he] at hrender
        simp [Event.isRender] at hrender
      · rw [he] at hrender
        simp [Event.isRender] at hrender
      · exact he
    cases hup : w.Render data with
    | none => simp [hup] at herr
    | some up =>
      simp only [hup] at herr
      exact ⟨up, data, hev, hup, by simpa [eq_comm] using herr⟩

/-- C11 on two worlds with the token of scenario 3: one whose renderer succeeds and one
whose renderer fails. -/
theorem Run_renders_iff_witness :
    listCmd.Run listBot1 sampleConsts (sampleWorld [bot1] [tok1] noon) acme
        = ([.Get "acme", .ListRobots 7, .ListTokens (sampleID 1),
            .Render true (printTokens.data (sampleWorld [bot1] [tok1] noon) [tok1])], .ok ())
      ∧ listCmd.Run listBot1 sampleConsts worldNoRender acme
        = ([.Get "acme", .ListRobots 7, .ListTokens (sampleID 1),
            .Render true (printTokens.data worldNoRender [tok1])],
           .error (.passed refused)) :=
  ⟨(Run_renders_iff listBot1 sampleConsts (sampleWorld [bot1] [tok1] noon) acme).2.2.1
      acmeAccount [bot1] bot1 ⟨[tok1]⟩ rfl rfl rfl (by decide) rfl (by decide) rfl (by decide),
   (Run_renders_iff listBot1 sampleConsts worldNoRender acme).2.2.1
      acmeAccount [bot1] bot1 ⟨[tok1]⟩ rfl rfl rfl (by decide) rfl (by decide) rfl (by decide)⟩

/-- C12: a token whose attributes lack the key "name" does not make row building fail.
For every token list, `printTokens` builds one row per token beside the header and
returns nil whenever the renderer does; the row of a token `ts[i]` without "name" has
the printed form of the nil interface, "<nil>", in its name column, and its ID and
created columns are those of the same token under any other attributes. -/
theorem nameless_token_row (w : World) (ts : List DataSet) (i : Nat) (t : DataSet)
    (hi : ts[i]? = some t) (hname : t.AttributeSet.lookup "name" = none) :
    (printTokens.data w ts).length = ts.length + 1
      ∧ (printTokens.data w ts)[i + 1]? = some ["<nil>", t.ID.String, printTokens.c w i t]
      ∧ Sprint (index t.AttributeSet "name") = Sprint Any.nil
      ∧ (∀ attrs, (printTokens.row w i { t with AttributeSet := attrs }).tail
          = [t.ID.String, printTokens.c w i t])
      ∧ (w.Render (printTokens.data w ts) = none → (printTokens w ts).2 = .ok ()) := by
  refine ⟨?_, ?_, ?_, ?_, ?_⟩
  · simp [printTokens.data, rows_length]
  · simp only [printTokens.data, List.getElem?_cons_succ]
    rw [rows_getElem_opt w ts 0 i, hi]
    simp [printTokens.row, index, hname, Sprint]
  · simp [index, hname]
  · intro attrs
    simp [printTokens.row, printTokens.c]
  · intro hrender
    simp [printTokens, hrender]

/-- C12 on a list whose second token has no "name". -/
theorem nameless_token_row_witness :
    (printTokens.data (sampleWorld [bot1] [tok1, tokNameless] noon) [tok1, tokNameless])[2]?
      = some ["<nil>", "00000000-0000-0000-0000-000000000015", "3m10s"] :=
  have h := (nameless_token_row (sampleWorld [bot1] [tok1, tokNameless] noon)
    [tok1, tokNameless] 1 tokNameless rfl (by decide)).2.1
  by
    rw [h]
    decide

/-- C13: the order of the roster does not matter to resolution. For every roster, every
permutation of it and every requested name, lines 60 to 80 give the same outcome on both:
the same robot ID, the same absence error or the same ambiguous-name error; and a run
whose roster fetch answers with the permuted roster is the same run. -/
theorem resolve_perm (c : listCmd) (k : Consts) (upCtx : Context) (rs rs' : List Robot)
    (h : rs.Perm rs') :
    listCmd.resolve c k upCtx rs = listCmd.resolve c k upCtx rs'
      ∧ ∀ (w : World) (a : AccountResponse), w.Get upCtx.Account = .ok a
          → a.Account.Type' = AccountType.AccountOrganization
          → w.ListRobots a.Organization.ID = .ok rs
          → listCmd.Run c k { w with ListRobots := fun _ => .ok rs' } upCtx
              = listCmd.Run c k w upCtx := by
  have hres : listCmd.resolve c k upCtx rs = listCmd.resolve c k upCtx rs' := by
    rw [resolve_eq_outcomeOfMatches, resolve_eq_outcomeOfMatches]
    exact outcomeOfMatches_perm c k upCtx _ _ (h.filter _)
  refine ⟨hres, ?_⟩
  intro w a hget horg hrs
  rw [Run_of_roster c k w upCtx a rs hget horg hrs,
    Run_of_roster c k { w with ListRobots := fun _ => .ok rs' } upCtx a rs' hget horg rfl,
    ← hres]
  cases listCmd.resolve c k upCtx rs with
  | error err => rfl
  | ok rid => simp only [tokens_congr]

/-- C13 on a roster of three robots and its reversal, with one and with two robots of the
requested name. -/
theorem resolve_perm_witness :
    listCmd.resolve listBot1 sampleConsts acme [bot3, bot1]
        = listCmd.resolve listBot1 sampleConsts acme [bot1, bot3]
      ∧ listCmd.resolve listBot1 sampleConsts acme [bot1, bot3, bot1Twin]
        = listCmd.resolve listBot1 sampleConsts acme [bot1Twin, bot3, bot1] :=
  ⟨(resolve_perm listBot1 sampleConsts acme [bot3, bot1] [bot1, bot3]
      (List.Perm.swap bot1 bot3 [])).1,
   (resolve_perm listBot1 sampleConsts acme [bot1, bot3, bot1Twin] [bot1Twin, bot3, bot1]
      (List.reverse_perm [bot1Twin, bot3, bot1])).1⟩

/-- C14: robots of other names do not influence resolution. For every roster and
requested name, the outcome of lines 60 to 80 on the roster is their outcome on the
sub-roster of the robots whose name equals the requested name, so two rosters with the
same such sub-roster resolve alike; and the outcome is decided by the number of those
robots: none gives the absence error, one gives that robot's ID, two or more give the
ambiguous-name error. -/
theorem resolve_ignores_other_names (c : listCmd) (k : Consts) (upCtx : Context)
    (rs : List Robot) :
    listCmd.resolve c k upCtx rs
        = listCmd.resolve c k upCtx (rs.filter (fun x => decide (x.Name = c.RobotName)))
      ∧ (∀ rs' : List Robot,
          rs'.filter (fun x => decide (x.Name = c.RobotName))
            = rs.filter (fun x => decide (x.Name = c.RobotName))
          → listCmd.resolve c k upCtx rs' = listCmd.resolve c k upCtx rs)
      ∧ (rs.countP (fun x => decide (x.Name = c.RobotName)) = 0
          → listCmd.resolve c k upCtx rs
              = .error (.Errorf k.errFindRobotFmt [c.RobotName, upCtx.Account]))
      ∧ (rs.countP (fun x => decide (x.Name = c.RobotName)) = 1
          → ∃ r, r ∈ rs ∧ r.Name = c.RobotName ∧ listCmd.resolve c k upCtx rs = .ok r.ID)
      ∧ (2 ≤ rs.countP (fun x => decide (x.Name = c.RobotName))
          → listCmd.resolve c k upCtx rs
              = .error (.Errorf k.errMultipleRobotFmt [c.RobotName, upCtx.Account])) := by
  refine ⟨?_, ?_, ?_, ?_, ?_⟩
  · rw [resolve_eq_outcomeOfMatches c k upCtx rs,
      resolve_eq_outcomeOfMatches c k upCtx (rs.filter _), List.filter_filter]
    simp
  · intro rs' hsame
    rw [resolve_eq_outcomeOfMatches c k upCtx rs', resolve_eq_outcomeOfMatches c k upCtx rs,
      hsame]
  · intro hzero
    apply resolve_of_no_match
    intro x hx hn
    have := List.countP_eq_zero.mp hzero x hx
    simp [hn] at this
  · intro hone
    have hpos : 0 < rs.countP (fun x => decide (x.Name = c.RobotName)) := by omega
    obtain ⟨r, hr, hn⟩ := List.countP_pos_iff.mp hpos
    have hname : r.Name = c.RobotName := by simpa using hn
    exact ⟨r, hr, hname, resolve_of_one_match c k upCtx r rs hr hname hone⟩
  · intro hmany
    exact resolve_of_many_matches c k upCtx rs hmany

/-- C14 on a roster where `bot1` stands between two robots of another name. -/
theorem resolve_ignores_other_names_witness :
    listCmd.resolve listBot1 sampleConsts acme [bot3, bot1, bot3]
        = listCmd.resolve listBot1 sampleConsts acme [bot1]
      ∧ ∃ r, r ∈ [bot3, bot1, bot3] ∧ r.Name = "bot1"
          ∧ listCmd.resolve listBot1 sampleConsts acme [bot3, bot1, bot3] = .ok r.ID :=
  ⟨(resolve_ignores_other_names listBot1 sampleConsts acme [bot3, bot1, bot3]).1,
   (resolve_ignores_other_names listBot1 sampleConsts acme [bot3, bot1, bot3]).2.2.2.1
      (by decide)⟩

end token
